import Mathlib

/-!
Verification of the tournament bracket/draw engine
(`bracket-generator.service.ts` and the draw orchestrator contract).

The TypeScript source is embedded shallowly: each service method becomes a
Lean function over explicit data, JS `Map` mutation becomes keyed updates on
association lists, string ids (`match_${n}`) become `"match_" ++ Nat.repr n`,
and `Array.prototype.sort` (stable in JS engines) becomes `List.mergeSort`.
Randomness (`generateSeed`, `new Date()`) is threaded as explicit parameters,
since neither influences any bracket topology or standings computation.
-/

/-! ## Decimal-representation machinery

Injectivity of `Nat.repr`, needed to reason about generated match ids such as
`"match_" ++ Nat.repr n`. -/

def digitsValAux (a : Nat) : List Char → Nat
  | [] => a
  | c :: cs => digitsValAux (a * 10 + (c.toNat - 48)) cs

theorem digitsValAux_nil (a : Nat) : digitsValAux a [] = a := rfl

theorem digitsValAux_cons (a : Nat) (c : Char) (cs : List Char) :
    digitsValAux a (c :: cs) = digitsValAux (a * 10 + (c.toNat - 48)) cs := rfl

theorem digitsValAux_eq (cs : List Char) : ∀ a : Nat,
    digitsValAux a cs = a * 10 ^ cs.length + digitsValAux 0 cs := by
  induction cs with
  | nil =>
    intro a
    rw [digitsValAux_nil, digitsValAux_nil]
    simp
  | cons c cs ih =>
    intro a
    rw [digitsValAux_cons, digitsValAux_cons 0, ih, ih (0 * 10 + (c.toNat - 48))]
    simp only [List.length_cons, pow_succ]
    ring

theorem digitChar_toNat (d : Nat) (h : d < 10) : (Nat.digitChar d).toNat = 48 + d := by
  interval_cases d <;> decide

theorem toDigitsCore_val (fuel : Nat) : ∀ (n : Nat) (ds : List Char), n < fuel →
    digitsValAux 0 (Nat.toDigitsCore 10 fuel n ds) = n * 10 ^ ds.length + digitsValAux 0 ds := by
  induction fuel with
  | zero => intro n ds h; omega
  | succ fuel ih =>
    intro n ds h
    rw [Nat.toDigitsCore]
    by_cases h0 : n / 10 = 0
    · rw [if_pos h0]
      have hlt : n % 10 < 10 := Nat.mod_lt _ (by norm_num)
      rw [digitsValAux_cons, digitChar_toNat (n % 10) hlt]
      have h1 : 0 * 10 + (48 + n % 10 - 48) = n := by omega
      rw [h1, digitsValAux_eq]
    · rw [if_neg h0]
      rw [ih (n / 10) _ (by omega)]
      rw [digitsValAux_cons, digitChar_toNat (n % 10) (Nat.mod_lt _ (by norm_num))]
      have h1 : 0 * 10 + (48 + n % 10 - 48) = n % 10 := by omega
      rw [h1, digitsValAux_eq ds (n % 10)]
      simp only [List.length_cons, pow_succ]
      have hn : 10 * (n / 10) + n % 10 = n := Nat.div_add_mod n 10
      have hr : n / 10 * (10 ^ ds.length * 10) + (n % 10 * 10 ^ ds.length + digitsValAux 0 ds)
          = (10 * (n / 10) + n % 10) * 10 ^ ds.length + digitsValAux 0 ds := by ring
      rw [hr, hn]

theorem toDigits_val (n : Nat) : digitsValAux 0 (Nat.toDigits 10 n) = n := by
  rw [Nat.toDigits, toDigitsCore_val (n + 1) n [] (Nat.lt_succ_self n), digitsValAux_nil]
  simp

theorem natRepr_inj {m n : Nat} (h : Nat.repr m = Nat.repr n) : m = n := by
  have h2 : Nat.toDigits 10 m = Nat.toDigits 10 n := by
    have := congrArg String.data h
    simpa [Nat.repr, List.asString] using this
  have := congrArg (digitsValAux 0) h2
  rwa [toDigits_val, toDigits_val] at this

theorem prefixedRepr_inj (p : String) {m n : Nat}
    (h : p ++ Nat.repr m = p ++ Nat.repr n) : m = n := by
  have hd := congrArg String.data h
  rw [String.data_append, String.data_append] at hd
  have hd2 := List.append_cancel_left hd
  exact natRepr_inj (String.ext hd2)

theorem append_repr_ne_of_head (p q : String) (c d : Char) (hc : p.data.head? = some c)
    (hd : q.data.head? = some d) (hne : c ≠ d) (n : Nat) : p ++ Nat.repr n ≠ q := by
  intro h
  have h1 := congrArg String.data h
  rw [String.data_append] at h1
  cases hp : p.data with
  | nil => rw [hp] at hc; simp at hc
  | cons a as =>
    rw [hp] at hc h1
    cases hq : q.data with
    | nil => rw [hq] at hd; simp at hd
    | cons b bs =>
      rw [hq] at hd h1
      simp only [Option.some.injEq, List.head?_cons] at hc hd
      simp only [List.cons_append, List.cons.injEq] at h1
      exact hne (hc ▸ hd ▸ h1.1)

/-! ## Data model

Mirrors the exported interfaces of `bracket-generator.service.ts`. Optional
TS fields become `Option`; the `Match` literal defaults mirror the fields a
TS object literal leaves undefined. -/

inductive BracketType where
  | GROUPS_ONLY
  | SINGLE_ELIMINATION
  | DOUBLE_ELIMINATION
  | ROUND_ROBIN
  | GROUPS_PLUS_KNOCKOUT
deriving DecidableEq, Repr

inductive MatchStatus where
  | PENDING
  | IN_PROGRESS
  | COMPLETED
deriving DecidableEq, Repr

structure Match where
  id : String
  round : Nat
  matchNumber : Nat
  team1Id : Option String := none
  team2Id : Option String := none
  team1Score : Option Nat := none
  team2Score : Option Nat := none
  winnerId : Option String := none
  loserId : Option String := none
  scheduledAt : Option Nat := none
  locationId : Option String := none
  status : MatchStatus
  nextMatchId : Option String := none
  loserNextMatchId : Option String := none
deriving DecidableEq, Repr

structure PlayoffRound where
  roundNumber : Nat
  roundName : String
  «matches» : List Match
deriving DecidableEq, Repr

structure BracketData where
  type : BracketType
  groupCount : Option Nat := none
  teamsPerGroup : Option Nat := none
  advancingTeamsPerGroup : Option Nat := none
  playoffRounds : Option (List PlayoffRound) := none
  «matches» : Option (List Match) := none
  thirdPlaceMatch : Option Bool := none
  seed : Option String := none
  generatedAt : Option Nat := none
deriving DecidableEq, Repr

structure GroupStanding where
  teamId : String
  played : Nat
  won : Nat
  drawn : Nat
  lost : Nat
  goalsFor : Nat
  goalsAgainst : Nat
  goalDifference : Int
  points : Nat
  position : Nat
deriving DecidableEq, Repr

structure GenOptions where
  groupCount : Option Nat := none
  teamsPerGroup : Option Nat := none
  advancingPerGroup : Option Nat := none
  thirdPlaceMatch : Option Bool := none
  seed : Option String := none
deriving DecidableEq, Repr

/-! ## Generic helpers -/

/-- `mapIdxFrom f s l` maps `f` over `l` with indices starting at `s`;
models JS `forEach((x, index) => ...)` rewrites. -/
def mapIdxFrom (f : Nat → α → β) : Nat → List α → List β
  | _, [] => []
  | i, a :: as => f i a :: mapIdxFrom f (i + 1) as

theorem mapIdxFrom_length (f : Nat → α → β) : ∀ (s : Nat) (l : List α),
    (mapIdxFrom f s l).length = l.length := by
  intro s l
  induction l generalizing s with
  | nil => rfl
  | cons a as ih => simp [mapIdxFrom, ih]

theorem mapIdxFrom_getElem? (f : Nat → α → β) : ∀ (l : List α) (s i : Nat),
    (mapIdxFrom f s l)[i]? = (l[i]?).map (f (s + i)) := by
  intro l
  induction l with
  | nil => intro s i; simp [mapIdxFrom]
  | cons a as ih =>
    intro s i
    cases i with
    | zero => simp [mapIdxFrom]
    | succ i =>
      simp only [mapIdxFrom, List.getElem?_cons_succ, ih (s + 1) i]
      have : s + 1 + i = s + (i + 1) := by omega
      rw [this]

/-- JS negative-index access: `l[k]` for an integer `k` is `undefined` when
`k < 0`. -/
def listGetInt (l : List α) (k : Int) : Option α :=
  if 0 ≤ k then l[k.toNat]? else none


/-- `Math.ceil(Math.log2(n))` as a structural computation: the least `k`
with `n ≤ 2 ^ k` (searched with fuel `n`, which suffices since `n ≤ 2 ^ n`). -/
def ceilLog2Go : Nat → Nat → Nat → Nat
  | 0, _, k => k
  | fuel + 1, n, k => if n ≤ 2 ^ k then k else ceilLog2Go fuel n (k + 1)

def ceilLog2 (n : Nat) : Nat := ceilLog2Go n n 0

theorem ceilLog2Go_reaches : ∀ (fuel n k : Nat), n ≤ 2 ^ (k + fuel) →
    n ≤ 2 ^ ceilLog2Go fuel n k := by
  intro fuel
  induction fuel with
  | zero =>
    intro n k h
    rw [ceilLog2Go]
    simpa using h
  | succ fuel ih =>
    intro n k h
    rw [ceilLog2Go]
    by_cases hk : n ≤ 2 ^ k
    · rwa [if_pos hk]
    · rw [if_neg hk]
      apply ih
      have : k + 1 + fuel = k + (fuel + 1) := by omega
      rw [this]
      exact h

theorem ceilLog2Go_min : ∀ (fuel n k j : Nat), n ≤ 2 ^ j → k ≤ j →
    ceilLog2Go fuel n k ≤ j := by
  intro fuel
  induction fuel with
  | zero =>
    intro n k j h hk
    rw [ceilLog2Go]
    exact hk
  | succ fuel ih =>
    intro n k j h hk
    rw [ceilLog2Go]
    by_cases hkle : n ≤ 2 ^ k
    · rwa [if_pos hkle]
    · rw [if_neg hkle]
      have hne : k ≠ j := by
        intro he
        exact hkle (he ▸ h)
      exact ih n (k + 1) j h (by omega)

theorem le_pow_ceilLog2 (n : Nat) : n ≤ 2 ^ ceilLog2 n := by
  apply ceilLog2Go_reaches
  have := Nat.lt_two_pow n
  simpa using this.le

theorem ceilLog2_le {n j : Nat} (h : n ≤ 2 ^ j) : ceilLog2 n ≤ j :=
  ceilLog2Go_min n n 0 j h (Nat.zero_le j)

theorem ceilLog2_eq_clog (n : Nat) : ceilLog2 n = Nat.clog 2 n := by
  apply le_antisymm
  · exact ceilLog2_le (Nat.le_pow_clog (by norm_num) n)
  · exact (Nat.le_pow_iff_clog_le (by norm_num)).mp (le_pow_ceilLog2 n)

theorem ceilLog2_pos {n : Nat} (h : 2 ≤ n) : 0 < ceilLog2 n := by
  rw [ceilLog2_eq_clog]
  exact Nat.clog_pos (by norm_num) h

/-! ## Bracket Topology Builder

Each private method of `BracketGeneratorService` becomes one function.
`generateSeed()` / `new Date()` are threaded as the `freshSeed` / `now`
parameters; neither value influences any structure. -/

/-- `getRoundName(round, totalRounds)`: readable round name from
distance-to-final. The JS subtraction can go negative, hence `Int`. -/
def getRoundName (round totalRounds : Nat) : String :=
  let roundsFromFinal : Int := (totalRounds : Int) - (round : Int)
  if roundsFromFinal = 0 then "Final"
  else if roundsFromFinal = 1 then "Semi-Finals"
  else if roundsFromFinal = 2 then "Quarter-Finals"
  else if roundsFromFinal = 3 then "Round of 16"
  else if roundsFromFinal = 4 then "Round of 32"
  else "Round " ++ Nat.repr round

/-- The main-round loop of `generateSingleEliminationBracket`: builds the
remaining rounds from `round` upward, threading the `matchId` counter, and
returns the rounds together with the final counter value. -/
def singleElimRoundsGo (bracketSize roundsNeeded : Nat) :
    Nat → Nat → Nat → List PlayoffRound × Nat
  | 0, _, matchId => ([], matchId)
  | remaining + 1, round, matchId =>
    let cnt := bracketSize / 2 ^ round
    let ms : List Match := (List.range cnt).map fun i =>
      { id := "match_" ++ Nat.repr (matchId + i), round := round,
        matchNumber := i + 1, status := .PENDING }
    let rest := singleElimRoundsGo bracketSize roundsNeeded remaining (round + 1) (matchId + cnt)
    ({ roundNumber := round, roundName := getRoundName round roundsNeeded,
       «matches» := ms } :: rest.1, rest.2)

/-- `linkSingleEliminationMatches`: match at index `i` points to match
`⌊i/2⌋` of the immediately following round, skipping a following
"Third Place" round; the last round is never linked. -/
def linkMatchesOfRound (nextRound : PlayoffRound) (r : PlayoffRound) : PlayoffRound :=
  { r with «matches» := mapIdxFrom (fun j m =>
      match nextRound.matches[j / 2]? with
      | some nm => { m with nextMatchId := some nm.id }
      | none => m) 0 r.matches }

def linkSingleEliminationMatches (playoffRounds : List PlayoffRound) : List PlayoffRound :=
  mapIdxFrom (fun i r =>
    match playoffRounds[i + 1]? with
    | none => r
    | some nextRound =>
      if nextRound.roundName = "Third Place" then r
      else linkMatchesOfRound nextRound r) 0 playoffRounds

/-- `generateSingleEliminationBracket(teamCount, thirdPlaceMatch, seed)`. -/
def generateSingleEliminationBracket (now teamCount : Nat) (thirdPlaceMatch : Option Bool)
    (seed : String) : BracketData :=
  let roundsNeeded := ceilLog2 teamCount
  let bracketSize := 2 ^ roundsNeeded
  let built := singleElimRoundsGo bracketSize roundsNeeded roundsNeeded 1 1
  let playoffRounds :=
    if thirdPlaceMatch = some true ∧ 2 ≤ roundsNeeded then
      built.1 ++ [{ roundNumber := roundsNeeded, roundName := "Third Place", «matches» :=
        [{ id := "match_" ++ Nat.repr built.2, round := roundsNeeded,
           matchNumber := 1, status := .PENDING }] }]
    else built.1
  { type := .SINGLE_ELIMINATION,
    playoffRounds := some (linkSingleEliminationMatches playoffRounds),
    thirdPlaceMatch := thirdPlaceMatch, seed := some seed, generatedAt := some now }

/-- The winners-bracket loop of `generateDoubleEliminationBracket`. -/
def doubleElimWinnersGo (bracketSize roundsNeeded : Nat) :
    Nat → Nat → Nat → List PlayoffRound × Nat
  | 0, _, matchId => ([], matchId)
  | remaining + 1, round, matchId =>
    let cnt := bracketSize / 2 ^ round
    let ms : List Match := (List.range cnt).map fun i =>
      { id := "winners_" ++ Nat.repr (matchId + i), round := round,
        matchNumber := i + 1, status := .PENDING }
    let rest := doubleElimWinnersGo bracketSize roundsNeeded remaining (round + 1) (matchId + cnt)
    ({ roundNumber := round, roundName := "Winners Round " ++ Nat.repr round, «matches» := ms }
      :: rest.1, rest.2)

/-- The losers-bracket loop of `generateDoubleEliminationBracket`:
`ceil(bracketSize / 2^(ceil(round/2)+1))` matches per round, round numbers
offset by `roundsNeeded`. -/
def doubleElimLosersGo (bracketSize roundsNeeded : Nat) :
    Nat → Nat → Nat → List PlayoffRound × Nat
  | 0, _, matchId => ([], matchId)
  | remaining + 1, round, matchId =>
    let denom := 2 ^ ((round + 1) / 2 + 1)
    let cnt := (bracketSize + denom - 1) / denom
    let ms : List Match := (List.range cnt).map fun i =>
      { id := "losers_" ++ Nat.repr (matchId + i), round := round + roundsNeeded,
        matchNumber := i + 1, status := .PENDING }
    let rest := doubleElimLosersGo bracketSize roundsNeeded remaining (round + 1) (matchId + cnt)
    ({ roundNumber := round + roundsNeeded, roundName := "Losers Round " ++ Nat.repr round, «matches» := ms }
      :: rest.1, rest.2)

/-- `generateDoubleEliminationBracket(teamCount, seed)`. -/
def generateDoubleEliminationBracket (now teamCount : Nat) (seed : String) : BracketData :=
  let roundsNeeded := ceilLog2 teamCount
  let bracketSize := 2 ^ roundsNeeded
  let winners := doubleElimWinnersGo bracketSize roundsNeeded roundsNeeded 1 1
  let loserRounds := 2 * roundsNeeded - 2
  let losers := doubleElimLosersGo bracketSize roundsNeeded loserRounds 1 winners.2
  let grand : PlayoffRound :=
    { roundNumber := roundsNeeded + loserRounds + 1, roundName := "Grand Finals", «matches» :=
      [{ id := "grand_final_" ++ Nat.repr losers.2, round := roundsNeeded + loserRounds + 1,
         matchNumber := 1, status := .PENDING }] }
  { type := .DOUBLE_ELIMINATION, playoffRounds := some (winners.1 ++ losers.1 ++ [grand]),
    seed := some seed, generatedAt := some now }

/-- The pair enumeration order of `generateRoundRobinBracket`'s nested loops:
`(i, j)` for `0 ≤ i < teamCount`, `i+1 ≤ j < teamCount`, outer loop on `i`. -/
def roundRobinPairs (teamCount : Nat) : List (Nat × Nat) :=
  (List.range teamCount).flatMap fun i =>
    (List.range' (i + 1) (teamCount - (i + 1))).map fun j => (i, j)

/-- The body of `generateRoundRobinBracket`'s nested loops, threading
`matchId`, `round` and `matchInRound` exactly as the mutable counters do:
`matchNumber = ++matchInRound`, and once `matchInRound` reaches
`maxPerRound = ⌊teamCount/2⌋` the round advances and the counter resets. -/
def roundRobinGo (maxPerRound : Nat) : List (Nat × Nat) → Nat → Nat → Nat → List Match
  | [], _, _, _ => []
  | _ :: rest, matchId, round, matchInRound =>
    { id := "match_" ++ Nat.repr matchId, round := round,
      matchNumber := matchInRound + 1, status := .PENDING }
      :: (if maxPerRound ≤ matchInRound + 1 then
            roundRobinGo maxPerRound rest (matchId + 1) (round + 1) 0
          else
            roundRobinGo maxPerRound rest (matchId + 1) round (matchInRound + 1))

/-- `generateRoundRobinBracket(teamCount, seed)`. -/
def generateRoundRobinBracket (now teamCount : Nat) (seed : String) : BracketData :=
  { type := .ROUND_ROBIN, «matches» :=
      some (roundRobinGo (teamCount / 2) (roundRobinPairs teamCount) 1 1 0),
    seed := some seed, generatedAt := some now }

/-- `groupCount || Math.ceil(teamCount / 4)` — `0` is falsy in JS. -/
def calcGroupCount (teamCount : Nat) (groupCount : Option Nat) : Nat :=
  match groupCount with
  | some g => if g = 0 then (teamCount + 3) / 4 else g
  | none => (teamCount + 3) / 4

/-- `generateGroupsOnlyBracket(teamCount, groupCount, seed)`: records only the
partition shape; neither `playoffRounds` nor `matches` is set. -/
def generateGroupsOnlyBracket (now teamCount : Nat) (groupCount : Option Nat)
    (seed : String) : BracketData :=
  let calculatedGroupCount := calcGroupCount teamCount groupCount
  let teamsPerGroup := (teamCount + calculatedGroupCount - 1) / calculatedGroupCount
  { type := .GROUPS_ONLY, groupCount := some calculatedGroupCount,
    teamsPerGroup := some teamsPerGroup, seed := some seed, generatedAt := some now }

/-- `generateGroupsWithKnockoutBracket(teamCount, groupCount,
advancingPerGroup, thirdPlaceMatch, seed)`. -/
def generateGroupsWithKnockoutBracket (now teamCount : Nat) (groupCount : Option Nat)
    (advancingPerGroup : Nat) (thirdPlaceMatch : Option Bool) (seed : String) : BracketData :=
  let calculatedGroupCount := calcGroupCount teamCount groupCount
  let teamsPerGroup := (teamCount + calculatedGroupCount - 1) / calculatedGroupCount
  let playoffTeamCount := calculatedGroupCount * advancingPerGroup
  let playoffBracket := generateSingleEliminationBracket now playoffTeamCount thirdPlaceMatch seed
  { type := .GROUPS_PLUS_KNOCKOUT, groupCount := some calculatedGroupCount,
    teamsPerGroup := some teamsPerGroup, advancingTeamsPerGroup := some advancingPerGroup,
    playoffRounds := playoffBracket.playoffRounds, thirdPlaceMatch := thirdPlaceMatch,
    seed := some seed, generatedAt := some now }

/-- `generateBracket(type, teamCount, options)`; `freshSeed` stands for the
`generateSeed()` call used when `options.seed` is falsy. -/
def generateBracket (freshSeed : String) (now : Nat) (type : BracketType) (teamCount : Nat)
    (options : GenOptions) : BracketData :=
  let seed := match options.seed with
    | some s => if s = "" then freshSeed else s
    | none => freshSeed
  match type with
  | .GROUPS_ONLY => generateGroupsOnlyBracket now teamCount options.groupCount seed
  | .SINGLE_ELIMINATION =>
    generateSingleEliminationBracket now teamCount options.thirdPlaceMatch seed
  | .DOUBLE_ELIMINATION => generateDoubleEliminationBracket now teamCount seed
  | .ROUND_ROBIN => generateRoundRobinBracket now teamCount seed
  | .GROUPS_PLUS_KNOCKOUT =>
    generateGroupsWithKnockoutBracket now teamCount options.groupCount
      (match options.advancingPerGroup with
       | some a => if a = 0 then 2 else a
       | none => 2)
      options.thirdPlaceMatch seed

/-! ## Standings Calculator

`calculateGroupStandings(groupTeamIds, matches)`. The JS `Map<string,
GroupStanding>` becomes an association list in key-insertion order
(`mapSet` = `Map.set`, `mapGetVal` = `Map.get`), and each in-place mutation
of a fetched standing object becomes a keyed update (`updStanding`), which
also reproduces the aliasing behaviour when both fetched references denote
the same object. -/

def mapSet (st : List (String × GroupStanding)) (k : String) (v : GroupStanding) :
    List (String × GroupStanding) :=
  if st.any (fun p => p.1 == k) then
    st.map (fun p => if p.1 = k then (k, v) else p)
  else
    st ++ [(k, v)]

def mapGetVal (st : List (String × GroupStanding)) (k : String) : Option GroupStanding :=
  (st.find? (fun p => p.1 == k)).map (·.2)

def updStanding (st : List (String × GroupStanding)) (k : String)
    (f : GroupStanding → GroupStanding) : List (String × GroupStanding) :=
  st.map fun p => if p.1 = k then (p.1, f p.2) else p

/-- The roster-initialisation `forEach`: one zeroed standing per team id,
`position = index + 1`. -/
def initStandingsGo : Nat → List String → List (String × GroupStanding) →
    List (String × GroupStanding)
  | _, [], st => st
  | idx, t :: ts, st =>
    initStandingsGo (idx + 1) ts (mapSet st t
      { teamId := t, played := 0, won := 0, drawn := 0, lost := 0, goalsFor := 0,
        goalsAgainst := 0, goalDifference := 0, points := 0, position := idx + 1 })

/-- JS truthiness of an optional team id: present and not the empty string. -/
def truthyId : Option String → Bool
  | none => false
  | some s => !(s == "")

/-- The `.filter(m => m.status === 'COMPLETED' && m.team1Id && m.team2Id)`
predicate. -/
def completedWithTeams (m : Match) : Bool :=
  (m.status == MatchStatus.COMPLETED) && truthyId m.team1Id && truthyId m.team2Id

/-- The mutation sequence of one match-processing iteration (both teams
found); `score1`/`score2` are the `|| 0`-defaulted scores. -/
def applyMatchCore (st : List (String × GroupStanding)) (t1 t2 : String)
    (score1 score2 : Nat) : List (String × GroupStanding) :=
  let st1 := updStanding st t1 fun s => { s with played := s.played + 1 }
  let st2 := updStanding st1 t2 fun s => { s with played := s.played + 1 }
  let st3 := updStanding st2 t1 fun s => { s with goalsFor := s.goalsFor + score1 }
  let st4 := updStanding st3 t1 fun s => { s with goalsAgainst := s.goalsAgainst + score2 }
  let st5 := updStanding st4 t2 fun s => { s with goalsFor := s.goalsFor + score2 }
  let st6 := updStanding st5 t2 fun s => { s with goalsAgainst := s.goalsAgainst + score1 }
  let st7 :=
    if score2 < score1 then
      updStanding (updStanding (updStanding st6
        t1 fun s => { s with won := s.won + 1 })
        t1 fun s => { s with points := s.points + 3 })
        t2 fun s => { s with lost := s.lost + 1 }
    else if score1 < score2 then
      updStanding (updStanding (updStanding st6
        t2 fun s => { s with won := s.won + 1 })
        t2 fun s => { s with points := s.points + 3 })
        t1 fun s => { s with lost := s.lost + 1 }
    else
      updStanding (updStanding (updStanding (updStanding st6
        t1 fun s => { s with drawn := s.drawn + 1 })
        t2 fun s => { s with drawn := s.drawn + 1 })
        t1 fun s => { s with points := s.points + 1 })
        t2 fun s => { s with points := s.points + 1 }
  let st8 := updStanding st7 t1 fun s =>
    { s with goalDifference := (s.goalsFor : Int) - (s.goalsAgainst : Int) }
  updStanding st8 t2 fun s =>
    { s with goalDifference := (s.goalsFor : Int) - (s.goalsAgainst : Int) }

/-- One iteration of the match-processing `forEach`: if either team is not
in the map, the match is silently skipped. -/
def applyMatchToStandings (st : List (String × GroupStanding)) (m : Match) :
    List (String × GroupStanding) :=
  match mapGetVal st (m.team1Id.getD ""), mapGetVal st (m.team2Id.getD "") with
  | some _, some _ =>
    applyMatchCore st (m.team1Id.getD "") (m.team2Id.getD "")
      (m.team1Score.getD 0) (m.team2Score.getD 0)
  | _, _ => st

/-- The pre-sort standings table: initialise roster, fold completed matches. -/
def standingsTable (groupTeamIds : List String) (ms : List Match) :
    List (String × GroupStanding) :=
  (ms.filter completedWithTeams).foldl applyMatchToStandings
    (initStandingsGo 0 groupTeamIds [])

/-- The sort comparator as a boolean `≤`: `cmp(a, b) ≤ 0` for the JS
comparator `b.points - a.points || b.goalDifference - a.goalDifference ||
b.goalsFor - a.goalsFor || 0` (split into its three compared levels). -/
def leStanding (a b : GroupStanding) : Bool :=
  decide (b.points < a.points) ||
    (decide (a.points = b.points) &&
      (decide (b.goalDifference < a.goalDifference) ||
        (decide (a.goalDifference = b.goalDifference) && decide (b.goalsFor ≤ a.goalsFor))))

/-- `calculateGroupStandings`: build table, stable-sort by the tie-break
ladder, re-assign `position` as the post-sort 1-based index. -/
def calculateGroupStandings (groupTeamIds : List String) (ms : List Match) :
    List GroupStanding :=
  let sorted := ((standingsTable groupTeamIds ms).map (·.2)).mergeSort leStanding
  mapIdxFrom (fun i s => { s with position := i + 1 }) 0 sorted

/-! ## Seeding Assigner -/

structure AdvancingTeam where
  teamId : String
  groupId : String
  position : Nat
deriving DecidableEq, Repr

/-- The collection loop of `seedTeamsIntoBracket`: top `advancingPerGroup`
standings of every group, in map-iteration (insertion) order. -/
def collectAdvancing (groupStandings : List (String × List GroupStanding))
    (advancingPerGroup : Nat) : List AdvancingTeam :=
  groupStandings.flatMap fun p =>
    (p.2.take advancingPerGroup).map fun s =>
      { teamId := s.teamId, groupId := p.1, position := s.position }

/-- Comparator `(a, b) => a.position - b.position` as a boolean `≤`. -/
def leAdvancing (a b : AdvancingTeam) : Bool :=
  decide (a.position ≤ b.position)

/-- `seedTeamsIntoBracket(groupStandings, advancingPerGroup, bracketData)`:
first-round match `i` gets `team1Id = advancingTeams[i]`,
`team2Id = advancingTeams[length - 1 - i]` when those indices exist. -/
def seedTeamsIntoBracket (groupStandings : List (String × List GroupStanding))
    (advancingPerGroup : Nat) (bracketData : BracketData) : BracketData :=
  let advancingTeams := (collectAdvancing groupStandings advancingPerGroup).mergeSort leAdvancing
  match bracketData.playoffRounds with
  | some (firstRound :: rest) =>
    let seeded := mapIdxFrom (fun i m =>
      let m1 := match listGetInt advancingTeams (i : Int) with
        | some t => { m with team1Id := some t.teamId }
        | none => m
      match listGetInt advancingTeams ((advancingTeams.length : Int) - 1 - (i : Int)) with
      | some t => { m1 with team2Id := some t.teamId }
      | none => m1) 0 firstRound.matches
    { bracketData with playoffRounds := some ({ firstRound with «matches» := seeded } :: rest) }
  | _ => bracketData

/-! ## Draw/Group Orchestrator

The `GroupsService` implementation is not part of the sources here; only its
controller, module wiring and unit tests are. Its `executeDraw` decision
logic is therefore modelled from the specification (§4.4): the ordered
precondition checks, then delete-old-groups / shuffle / partition / persist /
flag, as a pure state transformation. -/

namespace Draw

inductive TournamentStatus where
  | DRAFT
  | PUBLISHED
  | ONGOING
  | COMPLETED
  | CANCELLED
deriving DecidableEq, Repr

inductive UserRole where
  | ADMIN
  | ORGANIZER
  | USER
deriving DecidableEq, Repr

inductive RegistrationStatus where
  | PENDING
  | APPROVED
  | REJECTED
deriving DecidableEq, Repr

structure Tournament where
  id : String
  organizerId : String
  status : TournamentStatus
  drawCompleted : Bool
  drawSeed : Option String := none
deriving DecidableEq, Repr

structure Registration where
  id : String
  tournamentId : String
  clubId : String
  status : RegistrationStatus
deriving DecidableEq, Repr

structure Group where
  tournamentId : String
  groupLetter : String
  teams : List String
  groupOrder : Nat
deriving DecidableEq, Repr

structure DrawState where
  tournaments : List Tournament
  registrations : List Registration
  groups : List Group
deriving DecidableEq, Repr

inductive DrawError where
  | notFound
  | forbidden
  | alreadyDrawn
  | invalidState
  | insufficientTeams
  | invalidParameter
deriving DecidableEq, Repr

/-- Modelled from the spec: the fixed group-letter sequence `A, B, C, …`
used to label groups by creation index. -/
def groupLetters : List String := ["A", "B", "C", "D", "E", "F", "G", "H"]

/-- Modelled from the spec: partition a shuffled team list into
`numberOfGroups` groups of ceiling-division size, labelled by index. -/
def buildGroupsGo (tournamentId : String) (size : Nat) :
    Nat → Nat → List String → List Group
  | 0, _, _ => []
  | remaining + 1, idx, teams =>
    { tournamentId := tournamentId, groupLetter := (groupLetters[idx]?).getD "?",
      teams := teams.take size, groupOrder := idx }
      :: buildGroupsGo tournamentId size remaining (idx + 1) (teams.drop size)

/-- Modelled from the spec: `executeDraw(tournamentId, userId, role,
{ numberOfGroups })` — the missing `GroupsService.executeDraw`. Precondition
checks in the specified order (not-found, authorization, already-drawn,
status, approved-count, group-count), each failing before any mutation;
then delete pre-existing groups, shuffle (the random shuffle is threaded as
the `shuffle` parameter), partition with ceiling division, persist groups,
and set `drawCompleted = true` with a fresh `drawSeed`. -/
def executeDraw (shuffle : List String → List String) (newSeed : String) (st : DrawState)
    (tournamentId userId : String) (role : UserRole) (numberOfGroups : Nat) :
    Except DrawError DrawState :=
  match st.tournaments.find? (fun t => t.id == tournamentId) with
  | none => .error .notFound
  | some t =>
    if t.organizerId ≠ userId ∧ role ≠ .ADMIN then .error .forbidden
    else if t.drawCompleted then .error .alreadyDrawn
    else if t.status ≠ .PUBLISHED ∧ t.status ≠ .ONGOING then .error .invalidState
    else
      let approved := (st.registrations.filter fun r =>
        r.tournamentId == tournamentId && r.status == RegistrationStatus.APPROVED).map (·.clubId)
      if approved.length < 2 then .error .insufficientTeams
      else if approved.length < numberOfGroups then .error .invalidParameter
      else
        let shuffled := shuffle approved
        let size := (shuffled.length + numberOfGroups - 1) / numberOfGroups
        let newGroups := buildGroupsGo tournamentId size numberOfGroups 0 shuffled
        .ok { st with
          groups := st.groups.filter (fun g => g.tournamentId ≠ tournamentId) ++ newGroups,
          tournaments := st.tournaments.map fun u =>
            if u.id = tournamentId then { u with drawCompleted := true, drawSeed := some newSeed }
            else u }

end Draw

/-! ## Structural lemmas: single-elimination construction -/

def bracketRoundsOf (b : BracketData) : List PlayoffRound :=
  b.playoffRounds.getD []

/-- The shape of one generated single-elimination round. -/
def seRoundShape (R round idStart cnt : Nat) : PlayoffRound :=
  { roundNumber := round, roundName := getRoundName round R, «matches» :=
    (List.range cnt).map fun j =>
      { id := "match_" ++ Nat.repr (idStart + j), round := round,
        matchNumber := j + 1, status := .PENDING } }

theorem singleElimRoundsGo_succ (bs R rem round mid : Nat) :
    singleElimRoundsGo bs R (rem + 1) round mid =
      (seRoundShape R round mid (bs / 2 ^ round) ::
        (singleElimRoundsGo bs R rem (round + 1) (mid + bs / 2 ^ round)).1,
       (singleElimRoundsGo bs R rem (round + 1) (mid + bs / 2 ^ round)).2) := rfl

theorem singleElimRoundsGo_length (bs R : Nat) : ∀ (rem round mid : Nat),
    ((singleElimRoundsGo bs R rem round mid).1).length = rem := by
  intro rem
  induction rem with
  | zero => intro round mid; rfl
  | succ rem ih =>
    intro round mid
    rw [singleElimRoundsGo_succ]
    simp [ih]

theorem singleElimRoundsGo_getElem? (bs R : Nat) : ∀ (rem round mid i : Nat), i < rem →
    ∃ start, ((singleElimRoundsGo bs R rem round mid).1)[i]? =
      some (seRoundShape R (round + i) start (bs / 2 ^ (round + i))) := by
  intro rem
  induction rem with
  | zero => intro round mid i hi; omega
  | succ rem ih =>
    intro round mid i hi
    rw [singleElimRoundsGo_succ]
    cases i with
    | zero =>
      refine ⟨mid, ?_⟩
      rw [List.getElem?_cons_zero]
      simp
    | succ i =>
      obtain ⟨start, hstart⟩ := ih (round + 1) (mid + bs / 2 ^ round) i (by omega)
      refine ⟨start, ?_⟩
      have harith : round + 1 + i = round + (i + 1) := by omega
      rw [List.getElem?_cons_succ, hstart, harith]

theorem seRoundShape_matches_length (R round idStart cnt : Nat) :
    (seRoundShape R round idStart cnt).matches.length = cnt := by
  simp [seRoundShape]

theorem seRoundShape_matches_getElem? (R round idStart cnt j : Nat) (hj : j < cnt) :
    (seRoundShape R round idStart cnt).matches[j]? =
      some { id := "match_" ++ Nat.repr (idStart + j), round := round,
             matchNumber := j + 1, status := .PENDING } := by
  simp [seRoundShape, List.getElem?_range hj]

theorem roundName_head (round totalRounds : Nat) :
    ∃ c, (getRoundName round totalRounds).data.head? = some c ∧ c ≠ 'T' := by
  rw [getRoundName]
  by_cases h0 : (totalRounds : Int) - (round : Int) = 0
  · simp only [h0, if_pos]
    exact ⟨'F', by decide⟩
  all_goals by_cases h1 : (totalRounds : Int) - (round : Int) = 1
  all_goals by_cases h2 : (totalRounds : Int) - (round : Int) = 2
  all_goals by_cases h3 : (totalRounds : Int) - (round : Int) = 3
  all_goals by_cases h4 : (totalRounds : Int) - (round : Int) = 4
  all_goals simp only [h0, h1, h2, h3, h4, if_true, if_false, ite_true, ite_false,
    if_pos, if_neg, not_false_iff]
  all_goals first
    | exact ⟨'F', by decide⟩
    | exact ⟨'S', by decide⟩
    | exact ⟨'Q', by decide⟩
    | exact ⟨'R', by decide⟩
    | (refine ⟨'R', ?_, by decide⟩
       rw [String.data_append]
       rfl)

theorem getRoundName_ne_thirdPlace (round totalRounds : Nat) :
    getRoundName round totalRounds ≠ "Third Place" := by
  obtain ⟨c, hc, hne⟩ := roundName_head round totalRounds
  intro h
  rw [h] at hc
  simp only [show ("Third Place").data.head? = some 'T' from rfl, Option.some.injEq] at hc
  exact hne hc.symm

theorem linkMatchesOfRound_roundName (nr r : PlayoffRound) :
    (linkMatchesOfRound nr r).roundName = r.roundName := rfl

theorem linkMatchesOfRound_roundNumber (nr r : PlayoffRound) :
    (linkMatchesOfRound nr r).roundNumber = r.roundNumber := rfl

theorem linkMatchesOfRound_matches_length (nr r : PlayoffRound) :
    (linkMatchesOfRound nr r).matches.length = r.matches.length := by
  simp [linkMatchesOfRound, mapIdxFrom_length]

theorem linkMatchesOfRound_matches_getElem? (nr r : PlayoffRound) (j : Nat) :
    (linkMatchesOfRound nr r).matches[j]? = (r.matches[j]?).map fun m =>
      match nr.matches[j / 2]? with
      | some nm => { m with nextMatchId := some nm.id }
      | none => m := by
  show (mapIdxFrom _ 0 r.matches)[j]? = _
  rw [mapIdxFrom_getElem?]
  simp

/-- The per-index transformation applied by `linkSingleEliminationMatches`. -/
def linkStepAt (rs : List PlayoffRound) (i : Nat) (r : PlayoffRound) : PlayoffRound :=
  match rs[i + 1]? with
  | none => r
  | some nextRound =>
    if nextRound.roundName = "Third Place" then r else linkMatchesOfRound nextRound r

theorem linkSE_eq (rs : List PlayoffRound) :
    linkSingleEliminationMatches rs = mapIdxFrom (fun i r => linkStepAt rs i r) 0 rs := rfl

theorem linkSE_length (rs : List PlayoffRound) :
    (linkSingleEliminationMatches rs).length = rs.length := by
  rw [linkSE_eq, mapIdxFrom_length]

theorem linkSE_getElem? (rs : List PlayoffRound) (i : Nat) :
    (linkSingleEliminationMatches rs)[i]? = (rs[i]?).map (linkStepAt rs i) := by
  rw [linkSE_eq, mapIdxFrom_getElem?]
  simp

/-- The pre-link round list of `generateSingleEliminationBracket` (main
rounds plus the optional third-place round). -/
def seAllRounds (teamCount : Nat) (thirdPlaceMatch : Option Bool) : List PlayoffRound :=
  let roundsNeeded := ceilLog2 teamCount
  let built := singleElimRoundsGo (2 ^ roundsNeeded) roundsNeeded roundsNeeded 1 1
  if thirdPlaceMatch = some true ∧ 2 ≤ roundsNeeded then
    built.1 ++ [{ roundNumber := roundsNeeded, roundName := "Third Place", «matches» :=
      [{ id := "match_" ++ Nat.repr built.2, round := roundsNeeded,
         matchNumber := 1, status := .PENDING }] }]
  else built.1

theorem genSE_rounds (now teamCount : Nat) (tp : Option Bool) (seed : String) :
    bracketRoundsOf (generateSingleEliminationBracket now teamCount tp seed) =
      linkSingleEliminationMatches (seAllRounds teamCount tp) := rfl

theorem seAllRounds_getElem_lt (teamCount : Nat) (tp : Option Bool) (i : Nat)
    (hi : i < ceilLog2 teamCount) :
    ∃ start, (seAllRounds teamCount tp)[i]? =
      some (seRoundShape (ceilLog2 teamCount) (1 + i) start
        (2 ^ (ceilLog2 teamCount - (1 + i)))) := by
  obtain ⟨start, hstart⟩ := singleElimRoundsGo_getElem?
    (2 ^ ceilLog2 teamCount) (ceilLog2 teamCount)
    (ceilLog2 teamCount) 1 1 i hi
  have hdiv : 2 ^ ceilLog2 teamCount / 2 ^ (1 + i) =
      2 ^ (ceilLog2 teamCount - (1 + i)) :=
    Nat.pow_div (by omega) (by norm_num)
  rw [hdiv] at hstart
  refine ⟨start, ?_⟩
  rw [seAllRounds]
  by_cases hcase : tp = some true ∧ 2 ≤ ceilLog2 teamCount
  · rw [if_pos hcase, List.getElem?_append_left]
    · exact hstart
    · rw [singleElimRoundsGo_length]
      exact hi
  · rw [if_neg hcase]
    exact hstart

theorem seAllRounds_length (teamCount : Nat) (tp : Option Bool) :
    (seAllRounds teamCount tp).length =
      (if tp = some true ∧ 2 ≤ ceilLog2 teamCount then ceilLog2 teamCount + 1
       else ceilLog2 teamCount) := by
  rw [seAllRounds]
  by_cases hcase : tp = some true ∧ 2 ≤ ceilLog2 teamCount
  · rw [if_pos hcase, if_pos hcase]
    simp [singleElimRoundsGo_length]
  · rw [if_neg hcase, if_neg hcase]
    simp [singleElimRoundsGo_length]

theorem seAllRounds_getElem_tp (teamCount : Nat) (tp : Option Bool)
    (hcase : tp = some true ∧ 2 ≤ ceilLog2 teamCount) :
    ∃ tpid, (seAllRounds teamCount tp)[ceilLog2 teamCount]? =
      some { roundNumber := ceilLog2 teamCount, roundName := "Third Place", «matches» :=
        [{ id := "match_" ++ Nat.repr tpid, round := ceilLog2 teamCount,
           matchNumber := 1, status := .PENDING }] } := by
  rw [seAllRounds]
  refine ⟨(singleElimRoundsGo (2 ^ ceilLog2 teamCount) (ceilLog2 teamCount)
    (ceilLog2 teamCount) 1 1).2, ?_⟩
  rw [if_pos hcase, List.getElem?_append_right]
  · rw [singleElimRoundsGo_length]
    simp
  · rw [singleElimRoundsGo_length]

theorem filter_eq_take_of (p : α → Bool) : ∀ (l : List α) (R : Nat),
    (∀ i x, l[i]? = some x → i < R → p x = true) →
    (∀ i x, l[i]? = some x → R ≤ i → p x = false) →
    l.filter p = l.take R := by
  intro l
  induction l with
  | nil => intro R _ _; simp
  | cons a as ih =>
    intro R h1 h2
    cases R with
    | zero =>
      have ha : p a = false := h2 0 a (by simp) (Nat.le_refl 0)
      rw [List.take_zero, List.filter_cons]
      rw [ha]
      simp only [Bool.false_eq_true, if_false]
      have := ih 0 (fun i x _ hi => absurd hi (by omega))
        (fun i x hx _ => h2 (i + 1) x (by simpa using hx) (by omega))
      simpa using this
    | succ R =>
      have ha : p a = true := h1 0 a (by simp) (by omega)
      rw [List.take_succ_cons, List.filter_cons, ha]
      simp only [if_true]
      have := ih R (fun i x hx hi => h1 (i + 1) x (by simpa using hx) (by omega))
        (fun i x hx hi => h2 (i + 1) x (by simpa using hx) (by omega))
      rw [this]

theorem linkStepAt_roundName (rs : List PlayoffRound) (i : Nat) (r : PlayoffRound) :
    (linkStepAt rs i r).roundName = r.roundName := by
  rw [linkStepAt]
  cases rs[i + 1]? with
  | none => rfl
  | some nr =>
    by_cases h : nr.roundName = "Third Place"
    · simp [h]
    · simp [h, linkMatchesOfRound_roundName]

theorem linkStepAt_roundNumber (rs : List PlayoffRound) (i : Nat) (r : PlayoffRound) :
    (linkStepAt rs i r).roundNumber = r.roundNumber := by
  rw [linkStepAt]
  cases rs[i + 1]? with
  | none => rfl
  | some nr =>
    by_cases h : nr.roundName = "Third Place"
    · simp [h]
    · simp [h, linkMatchesOfRound_roundNumber]

theorem linkStepAt_matches_length (rs : List PlayoffRound) (i : Nat) (r : PlayoffRound) :
    (linkStepAt rs i r).matches.length = r.matches.length := by
  rw [linkStepAt]
  cases rs[i + 1]? with
  | none => rfl
  | some nr =>
    by_cases h : nr.roundName = "Third Place"
    · simp [h]
    · simp [h, linkMatchesOfRound_matches_length]

/-- The rounds of a bracket that are not the appended "Third Place" round. -/
def nonThirdPlaceRounds (rs : List PlayoffRound) : List PlayoffRound :=
  rs.filter fun r => !(r.roundName == "Third Place")

/-- The linked single-elimination round list, element-wise, below `R`. -/
theorem genSE_linked_getElem_lt (teamCount : Nat) (tp : Option Bool) (i : Nat)
    (hi : i < ceilLog2 teamCount) :
    ∃ start, (linkSingleEliminationMatches (seAllRounds teamCount tp))[i]? =
      some (linkStepAt (seAllRounds teamCount tp) i
        (seRoundShape (ceilLog2 teamCount) (1 + i) start
          (2 ^ (ceilLog2 teamCount - (1 + i))))) := by
  obtain ⟨start, hstart⟩ := seAllRounds_getElem_lt teamCount tp i hi
  refine ⟨start, ?_⟩
  rw [linkSE_getElem?, hstart]
  rfl

theorem genSE_linked_length (teamCount : Nat) (tp : Option Bool) :
    (linkSingleEliminationMatches (seAllRounds teamCount tp)).length =
      (if tp = some true ∧ 2 ≤ ceilLog2 teamCount then ceilLog2 teamCount + 1
       else ceilLog2 teamCount) := by
  rw [linkSE_length, seAllRounds_length]

theorem genSE_nonTP (teamCount : Nat) (tp : Option Bool) :
    nonThirdPlaceRounds (linkSingleEliminationMatches (seAllRounds teamCount tp)) =
      (linkSingleEliminationMatches (seAllRounds teamCount tp)).take (ceilLog2 teamCount) := by
  apply filter_eq_take_of
  · intro i x hx hi
    obtain ⟨start, hstart⟩ := genSE_linked_getElem_lt teamCount tp i hi
    rw [hstart] at hx
    have hx2 : x = linkStepAt (seAllRounds teamCount tp) i
        (seRoundShape (ceilLog2 teamCount) (1 + i) start
          (2 ^ (ceilLog2 teamCount - (1 + i)))) := by
      exact (Option.some.injEq _ _ ▸ hx).symm
    rw [hx2]
    have hname : (linkStepAt (seAllRounds teamCount tp) i
        (seRoundShape (ceilLog2 teamCount) (1 + i) start
          (2 ^ (ceilLog2 teamCount - (1 + i))))).roundName = getRoundName (1 + i)
          (ceilLog2 teamCount) := by
      rw [linkStepAt_roundName]
      rfl
    rw [hname]
    simp [getRoundName_ne_thirdPlace]
  · intro i x hx hi
    by_cases hcase : tp = some true ∧ 2 ≤ ceilLog2 teamCount
    · by_cases hiR : i = ceilLog2 teamCount
      · subst hiR
        obtain ⟨tpid, htpid⟩ := seAllRounds_getElem_tp teamCount tp hcase
        rw [linkSE_getElem?, htpid] at hx
        have hnone : (seAllRounds teamCount tp)[ceilLog2 teamCount + 1]? = none := by
          rw [List.getElem?_eq_none_iff, seAllRounds_length, if_pos hcase]
        simp only [Option.map_some', Option.some.injEq] at hx
        rw [← hx, linkStepAt, hnone]
        rfl
      · have : (linkSingleEliminationMatches (seAllRounds teamCount tp))[i]? = none := by
          rw [List.getElem?_eq_none_iff, genSE_linked_length, if_pos hcase]
          omega
        rw [this] at hx
        exact absurd hx (by simp)
    · have : (linkSingleEliminationMatches (seAllRounds teamCount tp))[i]? = none := by
        rw [List.getElem?_eq_none_iff, genSE_linked_length, if_neg hcase]
        omega
      rw [this] at hx
      exact absurd hx (by simp)

/-- The non-Third-Place rounds of a generated single-elimination bracket. -/
def seGeneratedNonTP (freshSeed : String) (now teamCount : Nat) (options : GenOptions) :
    List PlayoffRound :=
  nonThirdPlaceRounds (bracketRoundsOf
    (generateBracket freshSeed now .SINGLE_ELIMINATION teamCount options))

theorem seGeneratedNonTP_eq (freshSeed : String) (now teamCount : Nat) (options : GenOptions) :
    seGeneratedNonTP freshSeed now teamCount options =
      (linkSingleEliminationMatches (seAllRounds teamCount options.thirdPlaceMatch)).take
        (ceilLog2 teamCount) := by
  rw [seGeneratedNonTP]
  have hrw : bracketRoundsOf (generateBracket freshSeed now .SINGLE_ELIMINATION teamCount options)
      = linkSingleEliminationMatches (seAllRounds teamCount options.thirdPlaceMatch) := rfl
  rw [hrw, genSE_nonTP]

theorem seGeneratedNonTP_length (freshSeed : String) (now teamCount : Nat)
    (options : GenOptions) :
    (seGeneratedNonTP freshSeed now teamCount options).length = ceilLog2 teamCount := by
  rw [seGeneratedNonTP_eq, List.length_take, genSE_linked_length]
  by_cases hcase : options.thirdPlaceMatch = some true ∧ 2 ≤ ceilLog2 teamCount
  · rw [if_pos hcase]; omega
  · rw [if_neg hcase]; omega

theorem seGeneratedNonTP_getElem (freshSeed : String) (now teamCount : Nat)
    (options : GenOptions) (i : Nat) (r : PlayoffRound)
    (hx : (seGeneratedNonTP freshSeed now teamCount options)[i]? = some r) :
    i < ceilLog2 teamCount ∧
      r.matches.length = 2 ^ (ceilLog2 teamCount - (1 + i)) ∧
      r.roundName = getRoundName (i + 1) (ceilLog2 teamCount) := by
  have hi : i < ceilLog2 teamCount := by
    by_contra hge
    rw [List.getElem?_eq_none (by rw [seGeneratedNonTP_length]; omega)] at hx
    exact absurd hx (by simp)
  rw [seGeneratedNonTP_eq, List.getElem?_take_of_lt hi] at hx
  obtain ⟨start, hstart⟩ := genSE_linked_getElem_lt teamCount options.thirdPlaceMatch i hi
  rw [hstart] at hx
  simp only [Option.some.injEq] at hx
  subst hx
  refine ⟨hi, ?_, ?_⟩
  · rw [linkStepAt_matches_length, seRoundShape_matches_length]
  · rw [linkStepAt_roundName]
    show getRoundName (1 + i) (ceilLog2 teamCount) = _
    rw [Nat.add_comm 1 i]

/-- C3: for `teamCount ≥ 2`, `SINGLE_ELIMINATION` produces
`⌈log₂ teamCount⌉` rounds (the Third Place round excluded), whose match
counts strictly halve each round down to exactly one match in the final
round, with round names determined by distance from the final via
`getRoundName`; in particular `teamCount = 8` with no third place yields
three rounds of sizes 4/2/1 named Quarter-Finals/Semi-Finals/Final. -/
theorem singleElimination_round_structure (freshSeed : String) (now teamCount : Nat)
    (options : GenOptions) (htc : 2 ≤ teamCount) :
    (seGeneratedNonTP freshSeed now teamCount options).length = ceilLog2 teamCount ∧
    (∀ i r, (seGeneratedNonTP freshSeed now teamCount options)[i]? = some r →
      r.matches.length = 2 ^ (ceilLog2 teamCount - (1 + i)) ∧
      r.roundName = getRoundName (i + 1) (ceilLog2 teamCount)) ∧
    (∀ i r r2, (seGeneratedNonTP freshSeed now teamCount options)[i]? = some r →
      (seGeneratedNonTP freshSeed now teamCount options)[i + 1]? = some r2 →
      r.matches.length = 2 * r2.matches.length) ∧
    (∀ r, (seGeneratedNonTP freshSeed now teamCount options)[ceilLog2 teamCount - 1]? =
        some r → r.matches.length = 1) ∧
    ((bracketRoundsOf (generateBracket "s" 0 .SINGLE_ELIMINATION 8 {})).map
        (fun r => (r.roundName, r.matches.length)) =
      [("Quarter-Finals", 4), ("Semi-Finals", 2), ("Final", 1)]) := by
  refine ⟨seGeneratedNonTP_length freshSeed now teamCount options, ?_, ?_, ?_, by decide⟩
  · intro i r hx
    exact (seGeneratedNonTP_getElem freshSeed now teamCount options i r hx).2
  · intro i r r2 hx hx2
    obtain ⟨hi, hlen, -⟩ := seGeneratedNonTP_getElem freshSeed now teamCount options i r hx
    obtain ⟨hi2, hlen2, -⟩ := seGeneratedNonTP_getElem freshSeed now teamCount options
      (i + 1) r2 hx2
    rw [hlen, hlen2]
    have harith : ceilLog2 teamCount - (1 + i) = (ceilLog2 teamCount - (1 + (i + 1))) + 1 := by
      omega
    rw [harith, pow_succ]
    ring
  · intro r hx
    have hR : 0 < ceilLog2 teamCount := ceilLog2_pos htc
    obtain ⟨hi, hlen, -⟩ := seGeneratedNonTP_getElem freshSeed now teamCount options
      (ceilLog2 teamCount - 1) r hx
    rw [hlen]
    have harith : ceilLog2 teamCount - (1 + (ceilLog2 teamCount - 1)) = 0 := by omega
    rw [harith, pow_zero]

/-- Witness for C3 at `teamCount = 8`. -/
theorem singleElimination_round_structure_witness :
    2 ≤ 8 ∧ (seGeneratedNonTP "s" 0 8 {}).length = ceilLog2 8 :=
  ⟨by norm_num, (singleElimination_round_structure "s" 0 8 {} (by norm_num)).1⟩

/-! ## C4 support: link structure of generated single-elimination brackets -/

def seGeneratedRounds (freshSeed : String) (now teamCount : Nat) (options : GenOptions) :
    List PlayoffRound :=
  bracketRoundsOf (generateBracket freshSeed now .SINGLE_ELIMINATION teamCount options)

theorem seGeneratedRounds_eq (freshSeed : String) (now teamCount : Nat) (options : GenOptions) :
    seGeneratedRounds freshSeed now teamCount options =
      linkSingleEliminationMatches (seAllRounds teamCount options.thirdPlaceMatch) := rfl

theorem seRoundShape_mem_nextMatchId (R round s c : Nat) (m : Match)
    (hm : m ∈ (seRoundShape R round s c).matches) : m.nextMatchId = none := by
  rw [seRoundShape] at hm
  simp only [List.mem_map, List.mem_range] at hm
  obtain ⟨j, -, hj⟩ := hm
  rw [← hj]

theorem linked_shape_matches_getElem? (R r1 s c1 r2 s2 c2 j : Nat)
    (hj : j < c1) (hj2 : j / 2 < c2) :
    (linkMatchesOfRound (seRoundShape R r2 s2 c2) (seRoundShape R r1 s c1)).matches[j]? =
      some { id := "match_" ++ Nat.repr (s + j), round := r1, matchNumber := j + 1,
             status := .PENDING, nextMatchId := some ("match_" ++ Nat.repr (s2 + j / 2)) } := by
  rw [linkMatchesOfRound_matches_getElem?, seRoundShape_matches_getElem? R r1 s c1 j hj,
    seRoundShape_matches_getElem? R r2 s2 c2 (j / 2) hj2]
  rfl

/-- Adjacent non-final rounds of the linked list, with explicit shapes. -/
theorem genSE_linked_adjacent (teamCount : Nat) (tp : Option Bool) (i : Nat)
    (hi : i + 1 < ceilLog2 teamCount) :
    ∃ s s2,
      (linkSingleEliminationMatches (seAllRounds teamCount tp))[i]? =
        some (linkMatchesOfRound
          (seRoundShape (ceilLog2 teamCount) (1 + (i + 1)) s2
            (2 ^ (ceilLog2 teamCount - (1 + (i + 1)))))
          (seRoundShape (ceilLog2 teamCount) (1 + i) s
            (2 ^ (ceilLog2 teamCount - (1 + i))))) ∧
      (seAllRounds teamCount tp)[i + 1]? =
        some (seRoundShape (ceilLog2 teamCount) (1 + (i + 1)) s2
          (2 ^ (ceilLog2 teamCount - (1 + (i + 1))))) := by
  obtain ⟨s, hs⟩ := seAllRounds_getElem_lt teamCount tp i (by omega)
  obtain ⟨s2, hs2⟩ := seAllRounds_getElem_lt teamCount tp (i + 1) hi
  refine ⟨s, s2, ?_, hs2⟩
  rw [linkSE_getElem?, hs]
  simp only [Option.map_some', Option.some.injEq]
  have hname : (seRoundShape (ceilLog2 teamCount) (1 + (i + 1)) s2
      (2 ^ (ceilLog2 teamCount - (1 + (i + 1))))).roundName ≠ "Third Place" := by
    show getRoundName (1 + (i + 1)) (ceilLog2 teamCount) ≠ "Third Place"
    exact getRoundName_ne_thirdPlace _ _
  simp only [linkStepAt, hs2]
  rw [if_neg hname]

theorem linkStepAt_match_id_round (rs : List PlayoffRound) (i : Nat) (r : PlayoffRound)
    (j : Nat) :
    ((linkStepAt rs i r).matches[j]?).map (fun m => (m.id, m.round)) =
      (r.matches[j]?).map (fun m => (m.id, m.round)) := by
  rw [linkStepAt]
  cases rs[i + 1]? with
  | none => rfl
  | some nr =>
    by_cases h : nr.roundName = "Third Place"
    · simp [h]
    · simp only [h, if_false, if_neg h]
      rw [linkMatchesOfRound_matches_getElem?]
      cases r.matches[j]? with
      | none => rfl
      | some m =>
        cases nr.matches[j / 2]? with
        | none => rfl
        | some nm => rfl

theorem filter_div2_none (L2 k : Nat) (hk : L2 ≤ k) :
    (List.range (2 * L2)).filter (fun j => decide (j / 2 = k)) = [] := by
  rw [List.filter_eq_nil_iff]
  intro j hj
  rw [List.mem_range] at hj
  simp only [decide_eq_true_eq]
  omega

theorem filter_singleton_length (p : Nat → Bool) (a : Nat) :
    (List.filter p [a]).length = if p a then 1 else 0 := by
  by_cases h : p a
  · simp [List.filter_cons, h]
  · simp [List.filter_cons, h]

theorem length_filter_div2 (L2 : Nat) : ∀ k : Nat, k < L2 →
    ((List.range (2 * L2)).filter fun j => decide (j / 2 = k)).length = 2 := by
  induction L2 with
  | zero => intro k hk; omega
  | succ L2 ih =>
    intro k hk
    have hrange : 2 * (L2 + 1) = 2 * L2 + 1 + 1 := by omega
    rw [hrange, List.range_succ, List.range_succ, List.filter_append, List.filter_append,
      List.length_append, List.length_append, filter_singleton_length, filter_singleton_length]
    by_cases hkL : k < L2
    · rw [ih k hkL]
      have h1 : (decide (2 * L2 / 2 = k)) = false := decide_eq_false (by omega)
      have h2 : (decide ((2 * L2 + 1) / 2 = k)) = false := decide_eq_false (by omega)
      rw [h1, h2]
      simp
    · have hkeq : k = L2 := by omega
      subst hkeq
      rw [filter_div2_none k k (Nat.le_refl k)]
      have h1 : (decide (2 * k / 2 = k)) = true := decide_eq_true (by omega)
      have h2 : (decide ((2 * k + 1) / 2 = k)) = true := decide_eq_true (by omega)
      rw [h1, h2]
      simp

/-- The final main round of the linked list keeps its unlinked shape. -/
theorem genSE_linked_last (teamCount : Nat) (tp : Option Bool)
    (hR : 1 ≤ ceilLog2 teamCount) :
    ∃ s, (linkSingleEliminationMatches (seAllRounds teamCount tp))[ceilLog2 teamCount - 1]? =
      some (seRoundShape (ceilLog2 teamCount) (1 + (ceilLog2 teamCount - 1)) s
        (2 ^ (ceilLog2 teamCount - (1 + (ceilLog2 teamCount - 1))))) := by
  obtain ⟨s, hs⟩ := seAllRounds_getElem_lt teamCount tp (ceilLog2 teamCount - 1) (by omega)
  refine ⟨s, ?_⟩
  rw [linkSE_getElem?, hs]
  simp only [Option.map_some', Option.some.injEq]
  have hidx : ceilLog2 teamCount - 1 + 1 = ceilLog2 teamCount := by omega
  by_cases hcase : tp = some true ∧ 2 ≤ ceilLog2 teamCount
  · obtain ⟨tpid, htpid⟩ := seAllRounds_getElem_tp teamCount tp hcase
    rw [linkStepAt, hidx, htpid]
    rfl
  · have hnone : (seAllRounds teamCount tp)[ceilLog2 teamCount]? = none := by
      rw [List.getElem?_eq_none_iff, seAllRounds_length, if_neg hcase]
    rw [linkStepAt, hidx, hnone]

/-- The appended Third Place round survives linking unchanged. -/
theorem genSE_linked_tp (teamCount : Nat) (tp : Option Bool)
    (hcase : tp = some true ∧ 2 ≤ ceilLog2 teamCount) :
    ∃ tpid, (linkSingleEliminationMatches (seAllRounds teamCount tp))[ceilLog2 teamCount]? =
      some { roundNumber := ceilLog2 teamCount, roundName := "Third Place", «matches» :=
        [{ id := "match_" ++ Nat.repr tpid, round := ceilLog2 teamCount,
           matchNumber := 1, status := .PENDING }] } := by
  obtain ⟨tpid, htpid⟩ := seAllRounds_getElem_tp teamCount tp hcase
  refine ⟨tpid, ?_⟩
  rw [linkSE_getElem?, htpid]
  simp only [Option.map_some', Option.some.injEq]
  have hnone : (seAllRounds teamCount tp)[ceilLog2 teamCount + 1]? = none := by
    rw [List.getElem?_eq_none_iff, seAllRounds_length, if_pos hcase]
  rw [linkStepAt, hnone]

theorem genSE_linked_roundName_lt (teamCount : Nat) (tp : Option Bool) (i : Nat)
    (hi : i < ceilLog2 teamCount) (r : PlayoffRound)
    (hx : (linkSingleEliminationMatches (seAllRounds teamCount tp))[i]? = some r) :
    r.roundName = getRoundName (1 + i) (ceilLog2 teamCount) := by
  obtain ⟨s, hs⟩ := genSE_linked_getElem_lt teamCount tp i hi
  rw [hs] at hx
  simp only [Option.some.injEq] at hx
  subst hx
  rw [linkStepAt_roundName]
  rfl

/-- C4: in every single-elimination bracket from `generateBracket`, every
match of a non-final, non-Third-Place round links (via `nextMatchId`) to the
match at index `⌊j/2⌋` of the immediately following round, which sits in the
next `round` number; exactly two matches of a round reference the same
next-round match; and matches of the final round and of a "Third Place"
round carry no `nextMatchId`. -/
theorem singleElimination_links (freshSeed : String) (now teamCount : Nat)
    (options : GenOptions) :
    (∀ (i : Nat) (r : PlayoffRound) (j : Nat) (m : Match),
      (seGeneratedRounds freshSeed now teamCount options)[i]? = some r →
      i + 1 < ceilLog2 teamCount → r.matches[j]? = some m →
      ∃ (r2 : PlayoffRound) (m2 : Match),
        (seGeneratedRounds freshSeed now teamCount options)[i + 1]? = some r2 ∧
        r2.matches[j / 2]? = some m2 ∧ m.nextMatchId = some m2.id ∧
        m2.round = m.round + 1) ∧
    (∀ r m, (seGeneratedRounds freshSeed now teamCount options)[ceilLog2 teamCount - 1]? =
        some r → m ∈ r.matches → m.nextMatchId = none) ∧
    (∀ r m, r ∈ seGeneratedRounds freshSeed now teamCount options →
      r.roundName = "Third Place" → m ∈ r.matches → m.nextMatchId = none) ∧
    (∀ (i : Nat) (r r2 : PlayoffRound) (k : Nat) (m2 : Match),
      (seGeneratedRounds freshSeed now teamCount options)[i]? = some r →
      (seGeneratedRounds freshSeed now teamCount options)[i + 1]? = some r2 →
      i + 1 < ceilLog2 teamCount → r2.matches[k]? = some m2 →
      ((List.range r.matches.length).filter fun j =>
        decide (((r.matches[j]?).bind Match.nextMatchId) = some m2.id)).length = 2) := by
  refine ⟨?_, ?_, ?_, ?_⟩
  · intro i r j m hx hiR hj
    rw [seGeneratedRounds_eq] at hx ⊢
    obtain ⟨s, s2, hlink, hnext⟩ :=
      genSE_linked_adjacent teamCount options.thirdPlaceMatch i hiR
    rw [hlink] at hx
    simp only [Option.some.injEq] at hx
    subst hx
    obtain ⟨hjlen, -⟩ := List.getElem?_eq_some_iff.mp hj
    rw [linkMatchesOfRound_matches_length, seRoundShape_matches_length] at hjlen
    have hc : 2 ^ (ceilLog2 teamCount - (1 + i)) =
        2 * 2 ^ (ceilLog2 teamCount - (1 + (i + 1))) := by
      have : ceilLog2 teamCount - (1 + i) = (ceilLog2 teamCount - (1 + (i + 1))) + 1 := by omega
      rw [this, pow_succ]
      ring
    have hj2 : j / 2 < 2 ^ (ceilLog2 teamCount - (1 + (i + 1))) := by omega
    rw [linked_shape_matches_getElem? _ _ _ _ _ _ _ j hjlen hj2] at hj
    simp only [Option.some.injEq] at hj
    subst hj
    refine ⟨linkStepAt (seAllRounds teamCount options.thirdPlaceMatch) (i + 1)
      (seRoundShape (ceilLog2 teamCount) (1 + (i + 1)) s2
        (2 ^ (ceilLog2 teamCount - (1 + (i + 1))))), ?_⟩
    have hr2 : (linkSingleEliminationMatches
        (seAllRounds teamCount options.thirdPlaceMatch))[i + 1]? =
        some (linkStepAt (seAllRounds teamCount options.thirdPlaceMatch) (i + 1)
          (seRoundShape (ceilLog2 teamCount) (1 + (i + 1)) s2
            (2 ^ (ceilLog2 teamCount - (1 + (i + 1)))))) := by
      rw [linkSE_getElem?, hnext]
      rfl
    have hpair := linkStepAt_match_id_round (seAllRounds teamCount options.thirdPlaceMatch)
      (i + 1) (seRoundShape (ceilLog2 teamCount) (1 + (i + 1)) s2
        (2 ^ (ceilLog2 teamCount - (1 + (i + 1))))) (j / 2)
    rw [seRoundShape_matches_getElem? _ _ _ _ (j / 2) hj2] at hpair
    cases hm2 : (linkStepAt (seAllRounds teamCount options.thirdPlaceMatch) (i + 1)
        (seRoundShape (ceilLog2 teamCount) (1 + (i + 1)) s2
          (2 ^ (ceilLog2 teamCount - (1 + (i + 1)))))).matches[j / 2]? with
    | none =>
      rw [hm2] at hpair
      exact absurd hpair (by simp)
    | some m2 =>
      rw [hm2] at hpair
      simp only [Option.map_some', Option.some.injEq, Prod.mk.injEq] at hpair
      refine ⟨m2, hr2, rfl, by rw [hpair.1], ?_⟩
      rw [hpair.2]
      show 1 + (i + 1) = 1 + i + 1
      omega
  · intro r m hx hm
    rw [seGeneratedRounds_eq] at hx
    by_cases hR : 1 ≤ ceilLog2 teamCount
    · obtain ⟨s, hs⟩ := genSE_linked_last teamCount options.thirdPlaceMatch hR
      rw [hs] at hx
      simp only [Option.some.injEq] at hx
      subst hx
      exact seRoundShape_mem_nextMatchId _ _ _ _ m hm
    · have hnone : (linkSingleEliminationMatches
          (seAllRounds teamCount options.thirdPlaceMatch))[ceilLog2 teamCount - 1]? = none := by
        rw [List.getElem?_eq_none_iff, genSE_linked_length]
        have hfalse : ¬(options.thirdPlaceMatch = some true ∧ 2 ≤ ceilLog2 teamCount) := by
          intro hcon
          omega
        rw [if_neg hfalse]
        omega
      rw [hnone] at hx
      exact absurd hx (by simp)
  · intro r m hmem htp hm
    rw [seGeneratedRounds_eq] at hmem
    obtain ⟨i, hi⟩ := List.mem_iff_getElem?.mp hmem
    by_cases hiR : i < ceilLog2 teamCount
    · have hname := genSE_linked_roundName_lt teamCount options.thirdPlaceMatch i hiR r hi
      rw [htp] at hname
      exact absurd hname.symm (getRoundName_ne_thirdPlace _ _)
    · obtain ⟨hiLen, -⟩ := List.getElem?_eq_some_iff.mp hi
      rw [genSE_linked_length] at hiLen
      by_cases hcase : options.thirdPlaceMatch = some true ∧ 2 ≤ ceilLog2 teamCount
      · rw [if_pos hcase] at hiLen
        have hieq : i = ceilLog2 teamCount := by omega
        subst hieq
        obtain ⟨tpid, htpid⟩ := genSE_linked_tp teamCount options.thirdPlaceMatch hcase
        rw [htpid] at hi
        simp only [Option.some.injEq] at hi
        subst hi
        simp only [List.mem_singleton] at hm
        subst hm
        rfl
      · rw [if_neg hcase] at hiLen
        omega
  · intro i r r2 k m2 hx hx2 hiR hk
    rw [seGeneratedRounds_eq] at hx hx2
    obtain ⟨s, s2, hlink, hnext⟩ :=
      genSE_linked_adjacent teamCount options.thirdPlaceMatch i hiR
    rw [hlink] at hx
    simp only [Option.some.injEq] at hx
    subst hx
    rw [linkSE_getElem?, hnext] at hx2
    simp only [Option.map_some', Option.some.injEq] at hx2
    subst hx2
    obtain ⟨hklen, -⟩ := List.getElem?_eq_some_iff.mp hk
    rw [linkStepAt_matches_length, seRoundShape_matches_length] at hklen
    have hpair := linkStepAt_match_id_round (seAllRounds teamCount options.thirdPlaceMatch)
      (i + 1) (seRoundShape (ceilLog2 teamCount) (1 + (i + 1)) s2
        (2 ^ (ceilLog2 teamCount - (1 + (i + 1))))) k
    rw [hk, seRoundShape_matches_getElem? _ _ _ _ k hklen] at hpair
    simp only [Option.map_some', Option.some.injEq, Prod.mk.injEq] at hpair
    have hm2id : m2.id = "match_" ++ Nat.repr (s2 + k) := hpair.1
    have hlen : (linkMatchesOfRound
        (seRoundShape (ceilLog2 teamCount) (1 + (i + 1)) s2
          (2 ^ (ceilLog2 teamCount - (1 + (i + 1)))))
        (seRoundShape (ceilLog2 teamCount) (1 + i) s
          (2 ^ (ceilLog2 teamCount - (1 + i))))).matches.length =
        2 ^ (ceilLog2 teamCount - (1 + i)) := by
      rw [linkMatchesOfRound_matches_length, seRoundShape_matches_length]
    have hc : 2 ^ (ceilLog2 teamCount - (1 + i)) =
        2 * 2 ^ (ceilLog2 teamCount - (1 + (i + 1))) := by
      have : ceilLog2 teamCount - (1 + i) = (ceilLog2 teamCount - (1 + (i + 1))) + 1 := by omega
      rw [this, pow_succ]
      ring
    rw [hlen]
    have hcongr : ∀ j ∈ List.range (2 ^ (ceilLog2 teamCount - (1 + i))),
        (decide ((((linkMatchesOfRound
            (seRoundShape (ceilLog2 teamCount) (1 + (i + 1)) s2
              (2 ^ (ceilLog2 teamCount - (1 + (i + 1)))))
            (seRoundShape (ceilLog2 teamCount) (1 + i) s
              (2 ^ (ceilLog2 teamCount - (1 + i))))).matches[j]?).bind Match.nextMatchId) =
            some m2.id)) =
          decide (j / 2 = k) := by
      intro j hj
      rw [List.mem_range] at hj
      have hj2 : j / 2 < 2 ^ (ceilLog2 teamCount - (1 + (i + 1))) := by omega
      rw [linked_shape_matches_getElem? _ _ _ _ _ _ _ j hj hj2]
      simp only [Option.some_bind]
      apply decide_eq_decide.mpr
      constructor
      · intro heq
        simp only [Option.some.injEq] at heq
        rw [hm2id] at heq
        have := prefixedRepr_inj "match_" heq
        omega
      · intro heq
        rw [hm2id, heq]
    rw [List.filter_congr hcongr, hc, length_filter_div2 _ k hklen]

/-- Witness data for C4 at `teamCount = 8`: the linked quarter-final and
semi-final rounds. -/
def c4QuarterFinals : PlayoffRound :=
  { roundNumber := 1, roundName := "Quarter-Finals", «matches» :=
    [{ id := "match_1", round := 1, matchNumber := 1, status := .PENDING,
       nextMatchId := some "match_5" },
     { id := "match_2", round := 1, matchNumber := 2, status := .PENDING,
       nextMatchId := some "match_5" },
     { id := "match_3", round := 1, matchNumber := 3, status := .PENDING,
       nextMatchId := some "match_6" },
     { id := "match_4", round := 1, matchNumber := 4, status := .PENDING,
       nextMatchId := some "match_6" }] }

def c4SemiFinals : PlayoffRound :=
  { roundNumber := 2, roundName := "Semi-Finals", «matches» :=
    [{ id := "match_5", round := 2, matchNumber := 1, status := .PENDING,
       nextMatchId := some "match_7" },
     { id := "match_6", round := 2, matchNumber := 2, status := .PENDING,
       nextMatchId := some "match_7" }] }

def c4FirstSemi : Match :=
  { id := "match_5", round := 2, matchNumber := 1, status := .PENDING,
    nextMatchId := some "match_7" }

/-- Witness for C4: in the 8-team bracket, exactly two quarter-finals feed
the first semi-final. -/
theorem singleElimination_links_witness :
    ((List.range c4QuarterFinals.matches.length).filter fun j =>
      decide (((c4QuarterFinals.matches[j]?).bind Match.nextMatchId) =
        some c4FirstSemi.id)).length = 2 :=
  (singleElimination_links "s" 0 8 {}).2.2.2 0 c4QuarterFinals c4SemiFinals 0 c4FirstSemi
    (by decide) (by decide) (by decide) (by decide)

/-! ## C5 support: round numbers across all playoff-producing formats -/

theorem doubleElimWinnersGo_succ (bs R rem round mid : Nat) :
    doubleElimWinnersGo bs R (rem + 1) round mid =
      ({ roundNumber := round, roundName := "Winners Round " ++ Nat.repr round, «matches» :=
          (List.range (bs / 2 ^ round)).map fun j =>
            { id := "winners_" ++ Nat.repr (mid + j), round := round,
              matchNumber := j + 1, status := .PENDING } } ::
        (doubleElimWinnersGo bs R rem (round + 1) (mid + bs / 2 ^ round)).1,
       (doubleElimWinnersGo bs R rem (round + 1) (mid + bs / 2 ^ round)).2) := rfl

theorem doubleElimLosersGo_succ (bs R rem round mid : Nat) :
    doubleElimLosersGo bs R (rem + 1) round mid =
      ({ roundNumber := round + R, roundName := "Losers Round " ++ Nat.repr round, «matches» :=
          (List.range ((bs + 2 ^ ((round + 1) / 2 + 1) - 1) / 2 ^ ((round + 1) / 2 + 1))).map
            fun j =>
              { id := "losers_" ++ Nat.repr (mid + j), round := round + R,
                matchNumber := j + 1, status := .PENDING } } ::
        (doubleElimLosersGo bs R rem (round + 1)
          (mid + (bs + 2 ^ ((round + 1) / 2 + 1) - 1) / 2 ^ ((round + 1) / 2 + 1))).1,
       (doubleElimLosersGo bs R rem (round + 1)
          (mid + (bs + 2 ^ ((round + 1) / 2 + 1) - 1) / 2 ^ ((round + 1) / 2 + 1))).2) := rfl

theorem doubleElimWinnersGo_length (bs R : Nat) : ∀ (rem round mid : Nat),
    ((doubleElimWinnersGo bs R rem round mid).1).length = rem := by
  intro rem
  induction rem with
  | zero => intro round mid; rfl
  | succ rem ih =>
    intro round mid
    rw [doubleElimWinnersGo_succ]
    simp [ih]

theorem doubleElimLosersGo_length (bs R : Nat) : ∀ (rem round mid : Nat),
    ((doubleElimLosersGo bs R rem round mid).1).length = rem := by
  intro rem
  induction rem with
  | zero => intro round mid; rfl
  | succ rem ih =>
    intro round mid
    rw [doubleElimLosersGo_succ]
    simp [ih]

theorem doubleElimWinnersGo_getElem? (bs R : Nat) : ∀ (rem round mid i : Nat), i < rem →
    ∃ ms, ((doubleElimWinnersGo bs R rem round mid).1)[i]? =
      some { roundNumber := round + i,
             roundName := "Winners Round " ++ Nat.repr (round + i), «matches» := ms } := by
  intro rem
  induction rem with
  | zero => intro round mid i hi; omega
  | succ rem ih =>
    intro round mid i hi
    rw [doubleElimWinnersGo_succ]
    cases i with
    | zero =>
      refine ⟨(List.range (bs / 2 ^ round)).map fun j =>
        ({ id := "winners_" ++ Nat.repr (mid + j), round := round,
           matchNumber := j + 1, status := .PENDING } : Match), ?_⟩
      rw [List.getElem?_cons_zero]
      simp
    | succ i =>
      obtain ⟨ms, hms⟩ := ih (round + 1) (mid + bs / 2 ^ round) i (by omega)
      refine ⟨ms, ?_⟩
      rw [List.getElem?_cons_succ, hms]
      have : round + 1 + i = round + (i + 1) := by omega
      rw [this]

theorem doubleElimLosersGo_getElem? (bs R : Nat) : ∀ (rem round mid i : Nat), i < rem →
    ∃ ms, ((doubleElimLosersGo bs R rem round mid).1)[i]? =
      some { roundNumber := round + i + R,
             roundName := "Losers Round " ++ Nat.repr (round + i), «matches» := ms } := by
  intro rem
  induction rem with
  | zero => intro round mid i hi; omega
  | succ rem ih =>
    intro round mid i hi
    rw [doubleElimLosersGo_succ]
    cases i with
    | zero =>
      refine ⟨(List.range ((bs + 2 ^ ((round + 1) / 2 + 1) - 1) / 2 ^ ((round + 1) / 2 + 1))).map
        fun j => ({ id := "losers_" ++ Nat.repr (mid + j), round := round + R,
                    matchNumber := j + 1, status := .PENDING } : Match), ?_⟩
      rw [List.getElem?_cons_zero]
      simp
    | succ i =>
      obtain ⟨ms, hms⟩ := ih (round + 1)
        (mid + (bs + 2 ^ ((round + 1) / 2 + 1) - 1) / 2 ^ ((round + 1) / 2 + 1)) i (by omega)
      refine ⟨ms, ?_⟩
      rw [List.getElem?_cons_succ, hms]
      have : round + 1 + i = round + (i + 1) := by omega
      rw [this]

/-- The pieces of a generated double-elimination bracket. -/
def deWinners (teamCount : Nat) : List PlayoffRound × Nat :=
  doubleElimWinnersGo (2 ^ ceilLog2 teamCount) (ceilLog2 teamCount) (ceilLog2 teamCount) 1 1

def deLosers (teamCount : Nat) : List PlayoffRound × Nat :=
  doubleElimLosersGo (2 ^ ceilLog2 teamCount) (ceilLog2 teamCount)
    (2 * ceilLog2 teamCount - 2) 1 (deWinners teamCount).2

def deGrand (teamCount : Nat) : PlayoffRound :=
  { roundNumber := ceilLog2 teamCount + (2 * ceilLog2 teamCount - 2) + 1,
    roundName := "Grand Finals", «matches» :=
    [{ id := "grand_final_" ++ Nat.repr (deLosers teamCount).2,
       round := ceilLog2 teamCount + (2 * ceilLog2 teamCount - 2) + 1,
       matchNumber := 1, status := .PENDING }] }

def deAllRounds (teamCount : Nat) : List PlayoffRound :=
  (deWinners teamCount).1 ++ (deLosers teamCount).1 ++ [deGrand teamCount]

theorem genDE_rounds (now teamCount : Nat) (seed : String) :
    bracketRoundsOf (generateDoubleEliminationBracket now teamCount seed) =
      deAllRounds teamCount := rfl

theorem deWinners_length (teamCount : Nat) :
    (deWinners teamCount).1.length = ceilLog2 teamCount := by
  rw [deWinners, doubleElimWinnersGo_length]

theorem deLosers_length (teamCount : Nat) :
    (deLosers teamCount).1.length = 2 * ceilLog2 teamCount - 2 := by
  rw [deLosers, doubleElimLosersGo_length]

theorem deWinners_getElem? (teamCount i : Nat) (hi : i < ceilLog2 teamCount) :
    ∃ ms, (deWinners teamCount).1[i]? =
      some { roundNumber := 1 + i, roundName := "Winners Round " ++ Nat.repr (1 + i),
             «matches» := ms } := by
  rw [deWinners]
  exact doubleElimWinnersGo_getElem? (2 ^ ceilLog2 teamCount) (ceilLog2 teamCount)
    (ceilLog2 teamCount) 1 1 i hi

theorem deLosers_getElem? (teamCount i : Nat) (hi : i < 2 * ceilLog2 teamCount - 2) :
    ∃ ms, (deLosers teamCount).1[i]? =
      some { roundNumber := 1 + i + ceilLog2 teamCount,
             roundName := "Losers Round " ++ Nat.repr (1 + i), «matches» := ms } := by
  rw [deLosers]
  exact doubleElimLosersGo_getElem? (2 ^ ceilLog2 teamCount) (ceilLog2 teamCount)
    (2 * ceilLog2 teamCount - 2) 1 (deWinners teamCount).2 i hi

theorem deAllRounds_getElem (teamCount : Nat) (i : Nat) (r : PlayoffRound)
    (hx : (deAllRounds teamCount)[i]? = some r) :
    r.roundNumber = i + 1 ∧ r.roundName ≠ "Third Place" := by
  rw [deAllRounds, List.append_assoc] at hx
  by_cases hiW : i < ceilLog2 teamCount
  · rw [List.getElem?_append_left (by rw [deWinners_length]; exact hiW)] at hx
    obtain ⟨ms, hms⟩ := deWinners_getElem? teamCount i hiW
    rw [hms] at hx
    simp only [Option.some.injEq] at hx
    subst hx
    constructor
    · show 1 + i = i + 1
      omega
    · show "Winners Round " ++ Nat.repr (1 + i) ≠ "Third Place"
      exact append_repr_ne_of_head "Winners Round " "Third Place" 'W' 'T' rfl rfl
        (by decide) (1 + i)
  · rw [List.getElem?_append_right (by rw [deWinners_length]; omega), deWinners_length] at hx
    by_cases hiL : i - ceilLog2 teamCount < 2 * ceilLog2 teamCount - 2
    · rw [List.getElem?_append_left (by rw [deLosers_length]; exact hiL)] at hx
      obtain ⟨ms, hms⟩ := deLosers_getElem? teamCount (i - ceilLog2 teamCount) hiL
      rw [hms] at hx
      simp only [Option.some.injEq] at hx
      subst hx
      constructor
      · show 1 + (i - ceilLog2 teamCount) + ceilLog2 teamCount = i + 1
        omega
      · show "Losers Round " ++ Nat.repr (1 + (i - ceilLog2 teamCount)) ≠ "Third Place"
        exact append_repr_ne_of_head "Losers Round " "Third Place" 'L' 'T' rfl rfl
          (by decide) _
    · rw [List.getElem?_append_right (by rw [deLosers_length]; omega), deLosers_length] at hx
      by_cases hiG : i - ceilLog2 teamCount - (2 * ceilLog2 teamCount - 2) = 0
      · rw [hiG, List.getElem?_cons_zero] at hx
        simp only [Option.some.injEq] at hx
        subst hx
        constructor
        · show ceilLog2 teamCount + (2 * ceilLog2 teamCount - 2) + 1 = i + 1
          omega
        · show "Grand Finals" ≠ "Third Place"
          decide
      · rw [List.getElem?_eq_none (by simp only [List.length_singleton]; omega)] at hx
        exact absurd hx (by simp)

theorem deAllRounds_length (teamCount : Nat) :
    (deAllRounds teamCount).length =
      ceilLog2 teamCount + (2 * ceilLog2 teamCount - 2) + 1 := by
  rw [deAllRounds]
  simp only [List.length_append, List.length_singleton, deWinners_length, deLosers_length]

theorem genSE_linked_roundNumber_lt (teamCount : Nat) (tp : Option Bool) (i : Nat)
    (hi : i < ceilLog2 teamCount) (r : PlayoffRound)
    (hx : (linkSingleEliminationMatches (seAllRounds teamCount tp))[i]? = some r) :
    r.roundNumber = 1 + i := by
  obtain ⟨s, hs⟩ := genSE_linked_getElem_lt teamCount tp i hi
  rw [hs] at hx
  simp only [Option.some.injEq] at hx
  subst hx
  rw [linkStepAt_roundNumber]
  rfl

/-- Round numbers of a linked single-elimination round list: strictly
ascending on the non-Third-Place rounds, and a Third Place round can only
be last, repeating the previous round's number. -/
theorem se_linked_roundNumbers (teamCount : Nat) (tp : Option Bool) :
    ((nonThirdPlaceRounds (linkSingleEliminationMatches (seAllRounds teamCount tp))).map
        (fun r => r.roundNumber)).Pairwise (· < ·) ∧
    (∀ (i : Nat) (r : PlayoffRound),
      (linkSingleEliminationMatches (seAllRounds teamCount tp))[i]? = some r →
      r.roundName = "Third Place" →
      i + 1 = (linkSingleEliminationMatches (seAllRounds teamCount tp)).length ∧ 0 < i ∧
      (((linkSingleEliminationMatches (seAllRounds teamCount tp)).map
          (fun x => x.roundNumber)).take i).getLast? = some r.roundNumber) := by
  constructor
  · rw [genSE_nonTP]
    have hlen : ceilLog2 teamCount ≤
        (linkSingleEliminationMatches (seAllRounds teamCount tp)).length := by
      rw [genSE_linked_length]
      by_cases hcase : tp = some true ∧ 2 ≤ ceilLog2 teamCount
      · rw [if_pos hcase]; omega
      · rw [if_neg hcase]
    have heq : ((linkSingleEliminationMatches (seAllRounds teamCount tp)).take
        (ceilLog2 teamCount)).map (fun r => r.roundNumber) =
        (List.range (ceilLog2 teamCount)).map (fun i => i + 1) := by
      apply List.ext_getElem?
      intro n
      by_cases hn : n < ceilLog2 teamCount
      · rw [List.getElem?_map, List.getElem?_take_of_lt hn, List.getElem?_map,
          List.getElem?_range hn]
        obtain ⟨s, hs⟩ := genSE_linked_getElem_lt teamCount tp n hn
        rw [hs]
        simp only [Option.map_some', Option.some.injEq]
        rw [linkStepAt_roundNumber]
        show (1 + n) = n + 1
        omega
      · rw [List.getElem?_eq_none, List.getElem?_eq_none]
        · simp only [List.length_map, List.length_range]
          omega
        · simp only [List.length_map, List.length_take]
          omega
    rw [heq]
    apply List.Pairwise.map (fun i => i + 1) (fun a b hab => Nat.add_lt_add_right hab 1)
    exact List.pairwise_lt_range (ceilLog2 teamCount)
  · intro i r hx htp
    by_cases hiR : i < ceilLog2 teamCount
    · have hname := genSE_linked_roundName_lt teamCount tp i hiR r hx
      rw [htp] at hname
      exact absurd hname.symm (getRoundName_ne_thirdPlace _ _)
    · obtain ⟨hiLen, -⟩ := List.getElem?_eq_some_iff.mp hx
      rw [genSE_linked_length] at hiLen
      by_cases hcase : tp = some true ∧ 2 ≤ ceilLog2 teamCount
      · rw [if_pos hcase] at hiLen
        have hieq : i = ceilLog2 teamCount := by omega
        subst hieq
        obtain ⟨tpid, htpid⟩ := genSE_linked_tp teamCount tp hcase
        rw [htpid] at hx
        simp only [Option.some.injEq] at hx
        subst hx
        refine ⟨by rw [genSE_linked_length, if_pos hcase], by omega, ?_⟩
        have hlast : (((linkSingleEliminationMatches (seAllRounds teamCount tp)).map
            (fun x => x.roundNumber)).take (ceilLog2 teamCount)).getLast? =
            (((linkSingleEliminationMatches (seAllRounds teamCount tp)).map
              (fun x => x.roundNumber)).take
                (ceilLog2 teamCount))[ceilLog2 teamCount - 1]? := by
          rw [List.getLast?_eq_getElem?]
          congr 1
          simp only [List.length_take, List.length_map, genSE_linked_length, if_pos hcase]
          omega
        rw [hlast, List.getElem?_take_of_lt (by omega), List.getElem?_map]
        obtain ⟨s, hs⟩ := genSE_linked_getElem_lt teamCount tp (ceilLog2 teamCount - 1)
          (by omega)
        rw [hs]
        simp only [Option.map_some', Option.some.injEq]
        rw [linkStepAt_roundNumber]
        show 1 + (ceilLog2 teamCount - 1) = ceilLog2 teamCount
        omega
      · rw [if_neg hcase] at hiLen
        omega

/-- The playoff team count used by `generateGroupsWithKnockoutBracket` via
`generateBracket` (including the `advancingPerGroup || 2` falsy default). -/
def gpkPlayoffTeamCount (teamCount : Nat) (options : GenOptions) : Nat :=
  calcGroupCount teamCount options.groupCount *
    (match options.advancingPerGroup with
     | some a => if a = 0 then 2 else a
     | none => 2)

theorem genGPK_rounds (freshSeed : String) (now teamCount : Nat) (options : GenOptions) :
    (generateBracket freshSeed now .GROUPS_PLUS_KNOCKOUT teamCount options).playoffRounds =
      some (linkSingleEliminationMatches
        (seAllRounds (gpkPlayoffTeamCount teamCount options) options.thirdPlaceMatch)) := rfl

/-- C5 (amended): in every `generateBracket` output with `playoffRounds`
(`teamCount ≥ 2`), the `roundNumber` sequence restricted to rounds not named
"Third Place" is strictly ascending (hence unique); an appended Third Place
round can only be the last round and repeats the previous round's
`roundNumber` (= `roundsNeeded`) instead of extending the sequence. -/
theorem playoffRounds_roundNumbers (freshSeed : String) (now : Nat) (type : BracketType)
    (teamCount : Nat) (options : GenOptions) (htc : 2 ≤ teamCount) (rs : List PlayoffRound)
    (hrs : (generateBracket freshSeed now type teamCount options).playoffRounds = some rs) :
    ((nonThirdPlaceRounds rs).map (fun r => r.roundNumber)).Pairwise (· < ·) ∧
    (∀ (i : Nat) (r : PlayoffRound), rs[i]? = some r → r.roundName = "Third Place" →
      i + 1 = rs.length ∧ 0 < i ∧
      ((rs.map (fun x => x.roundNumber)).take i).getLast? = some r.roundNumber) := by
  cases type with
  | GROUPS_ONLY => exact Option.noConfusion hrs
  | ROUND_ROBIN => exact Option.noConfusion hrs
  | SINGLE_ELIMINATION =>
    have h0 : (generateBracket freshSeed now .SINGLE_ELIMINATION teamCount
        options).playoffRounds =
        some (linkSingleEliminationMatches
          (seAllRounds teamCount options.thirdPlaceMatch)) := rfl
    rw [h0] at hrs
    simp only [Option.some.injEq] at hrs
    subst hrs
    exact se_linked_roundNumbers teamCount options.thirdPlaceMatch
  | GROUPS_PLUS_KNOCKOUT =>
    rw [genGPK_rounds] at hrs
    simp only [Option.some.injEq] at hrs
    subst hrs
    exact se_linked_roundNumbers (gpkPlayoffTeamCount teamCount options)
      options.thirdPlaceMatch
  | DOUBLE_ELIMINATION =>
    have h0 : (generateBracket freshSeed now .DOUBLE_ELIMINATION teamCount
        options).playoffRounds = some (deAllRounds teamCount) := rfl
    rw [h0] at hrs
    simp only [Option.some.injEq] at hrs
    subst hrs
    constructor
    · have hfil : nonThirdPlaceRounds (deAllRounds teamCount) = deAllRounds teamCount := by
        rw [nonThirdPlaceRounds]
        rw [List.filter_eq_self]
        intro a ha
        obtain ⟨i, hi⟩ := List.mem_iff_getElem?.mp ha
        have := (deAllRounds_getElem teamCount i a hi).2
        simp [this]
      rw [hfil]
      have heq : (deAllRounds teamCount).map (fun r => r.roundNumber) =
          (List.range (deAllRounds teamCount).length).map (fun i => i + 1) := by
        apply List.ext_getElem?
        intro n
        by_cases hn : n < (deAllRounds teamCount).length
        · rw [List.getElem?_map, List.getElem?_map, List.getElem?_range hn,
            List.getElem?_eq_getElem hn]
          simp only [Option.map_some', Option.some.injEq]
          exact (deAllRounds_getElem teamCount n ((deAllRounds teamCount)[n])
            (List.getElem?_eq_getElem hn)).1
        · rw [List.getElem?_eq_none, List.getElem?_eq_none]
          · simp only [List.length_map, List.length_range]
            omega
          · simp only [List.length_map]
            omega
      rw [heq]
      apply List.Pairwise.map (fun i => i + 1) (fun a b hab => Nat.add_lt_add_right hab 1)
      exact List.pairwise_lt_range _
    · intro i r hx htp
      exact absurd htp (deAllRounds_getElem teamCount i r hx).2

/-- C5 counterexample: with a Third Place round appended
(`SINGLE_ELIMINATION`, `teamCount = 4`, `thirdPlaceMatch = true`) the
`roundNumber` sequence is `[1, 2, 2]` — neither unique nor ascending. -/
theorem thirdPlace_duplicates_roundNumber :
    ((bracketRoundsOf (generateBracket "s" 0 .SINGLE_ELIMINATION 4
        { thirdPlaceMatch := some true })).map (fun r => r.roundNumber) = [1, 2, 2]) ∧
    ¬ ((bracketRoundsOf (generateBracket "s" 0 .SINGLE_ELIMINATION 4
        { thirdPlaceMatch := some true })).map (fun r => r.roundNumber)).Nodup ∧
    ¬ (((bracketRoundsOf (generateBracket "s" 0 .SINGLE_ELIMINATION 4
        { thirdPlaceMatch := some true })).map (fun r => r.roundNumber)).Pairwise (· < ·)) :=
  ⟨by decide, by decide, by decide⟩

/-- Witness for C5 at `SINGLE_ELIMINATION`, `teamCount = 4`,
`thirdPlaceMatch = true`. -/
theorem playoffRounds_roundNumbers_witness :
    ((nonThirdPlaceRounds (bracketRoundsOf (generateBracket "s" 0 .SINGLE_ELIMINATION 4
        { thirdPlaceMatch := some true }))).map (fun r => r.roundNumber)).Pairwise (· < ·) :=
  (playoffRounds_roundNumbers "s" 0 .SINGLE_ELIMINATION 4 { thirdPlaceMatch := some true }
    (by norm_num) _ rfl).1

/-! ## C2: which of `playoffRounds` / `matches` each format populates -/

def hasPlayoffRoundsExpected : BracketType → Bool
  | .SINGLE_ELIMINATION => true
  | .DOUBLE_ELIMINATION => true
  | .GROUPS_PLUS_KNOCKOUT => true
  | _ => false

def hasFlatMatchesExpected : BracketType → Bool
  | .ROUND_ROBIN => true
  | _ => false

/-- C2 (amended): a `BracketData` from `generateBracket` populates at most
one of `playoffRounds` / `matches`, and which one is determined by `type`:
`playoffRounds` for the elimination-containing formats, `matches` for
`ROUND_ROBIN`, and — unlike the stated invariant — neither for
`GROUPS_ONLY`, which records only the partition shape. -/
theorem generateBracket_populates (freshSeed : String) (now : Nat) (type : BracketType)
    (teamCount : Nat) (options : GenOptions) :
    (generateBracket freshSeed now type teamCount options).playoffRounds.isSome =
      hasPlayoffRoundsExpected type ∧
    (generateBracket freshSeed now type teamCount options).matches.isSome =
      hasFlatMatchesExpected type := by
  cases type <;> exact ⟨rfl, rfl⟩

/-- C2 counterexample: for `GROUPS_ONLY` (e.g. `teamCount = 6`) the returned
value populates neither `playoffRounds` nor `matches`, so "exactly one of
the two is populated" fails. -/
theorem groupsOnly_populates_neither :
    (generateBracket "s" 0 .GROUPS_ONLY 6 {}).playoffRounds = none ∧
    (generateBracket "s" 0 .GROUPS_ONLY 6 {}).matches = none ∧
    ¬ (((generateBracket "s" 0 .GROUPS_ONLY 6 {}).playoffRounds.isSome = true ∧
        ¬ (generateBracket "s" 0 .GROUPS_ONLY 6 {}).matches.isSome = true) ∨
       (¬ (generateBracket "s" 0 .GROUPS_ONLY 6 {}).playoffRounds.isSome = true ∧
        (generateBracket "s" 0 .GROUPS_ONLY 6 {}).matches.isSome = true)) :=
  ⟨rfl, rfl, by decide⟩

/-! ## C6 support: round-robin generation -/

theorem roundRobinGo_length (f : Nat) : ∀ (l : List (Nat × Nat)) (mid round mir : Nat),
    (roundRobinGo f l mid round mir).length = l.length := by
  intro l
  induction l with
  | nil => intro mid round mir; rfl
  | cons p rest ih =>
    intro mid round mir
    rw [roundRobinGo]
    by_cases h : f ≤ mir + 1
    · rw [if_pos h]
      simp [ih]
    · rw [if_neg h]
      simp [ih]

theorem roundRobinGo_getElem? (f : Nat) (hf : 0 < f) : ∀ (l : List (Nat × Nat)) (k i : Nat),
    i < l.length →
    (roundRobinGo f l (k + 1) (k / f + 1) (k % f))[i]? =
      some { id := "match_" ++ Nat.repr (k + i + 1), round := (k + i) / f + 1,
             matchNumber := (k + i) % f + 1, status := .PENDING } := by
  intro l
  induction l with
  | nil => intro k i hi; simp at hi
  | cons p rest ih =>
    intro k i hi
    rw [roundRobinGo]
    cases i with
    | zero =>
      rw [List.getElem?_cons_zero]
      simp
    | succ i =>
      rw [List.getElem?_cons_succ]
      have hmodlt : k % f < f := Nat.mod_lt _ hf
      have hdm := Nat.div_add_mod k f
      by_cases hcond : f ≤ k % f + 1
      · rw [if_pos hcond]
        have hmod : k % f = f - 1 := by omega
        have hk1 : k + 1 = f * (k / f + 1) := by
          rw [Nat.mul_succ]
          omega
        have hdiv1 : (k + 1) / f = k / f + 1 := by
          rw [hk1, Nat.mul_div_cancel_left _ hf]
        have hmod1 : (k + 1) % f = 0 := by
          rw [hk1, Nat.mul_mod_right]
        have := ih (k + 1) i (by simpa using hi)
        rw [hdiv1, hmod1] at this
        rw [this]
        have harith : k + 1 + i = k + (i + 1) := by omega
        rw [harith]
      · rw [if_neg hcond]
        have hk1 : k + 1 = f * (k / f) + (k % f + 1) := by omega
        have hlt1 : k % f + 1 < f := by omega
        have hdiv1 : (k + 1) / f = k / f := by
          have h2 : (f * (k / f) + (k % f + 1)) / f = k / f + (k % f + 1) / f :=
            Nat.mul_add_div hf _ _
          have h3 : (k % f + 1) / f = 0 := Nat.div_eq_of_lt hlt1
          rw [hk1, h2, h3]
          omega

        have hmod1 : (k + 1) % f = k % f + 1 := by
          have h2 : (f * (k / f) + (k % f + 1)) % f = (k % f + 1) % f :=
            Nat.mul_add_mod _ _ _
          have h3 : (k % f + 1) % f = k % f + 1 := Nat.mod_eq_of_lt hlt1
          rw [hk1, h2, h3]
        have := ih (k + 1) i (by simpa using hi)
        rw [hdiv1, hmod1] at this
        rw [this]
        have harith : k + 1 + i = k + (i + 1) := by omega
        rw [harith]

theorem roundRobinPairs_mem (n : Nat) (p : Nat × Nat) :
    p ∈ roundRobinPairs n ↔ p.1 < p.2 ∧ p.2 < n := by
  rw [roundRobinPairs]
  simp only [List.mem_flatMap, List.mem_map, List.mem_range]
  constructor
  · rintro ⟨i, hi, j, hj, hp⟩
    rw [List.mem_range'_1] at hj
    rw [← hp]
    constructor
    · omega
    · omega
  · rintro ⟨h1, h2⟩
    refine ⟨p.1, by omega, p.2, ?_, rfl⟩
    rw [List.mem_range'_1]
    omega

theorem roundRobinPairs_nodup (n : Nat) : (roundRobinPairs n).Nodup := by
  rw [roundRobinPairs, List.nodup_flatMap]
  constructor
  · intro i hi
    exact List.Nodup.map (fun a b hab => by simpa using hab) (List.nodup_range' _ _)
  · apply List.Pairwise.imp ?_ (List.pairwise_lt_range n)
    intro a b hab
    rw [Function.onFun, List.disjoint_left]
    intro p hpa hpb
    simp only [List.mem_map] at hpa hpb
    obtain ⟨ja, -, hja⟩ := hpa
    obtain ⟨jb, -, hjb⟩ := hpb
    rw [← hja] at hjb
    have : b = a := congrArg Prod.fst hjb
    omega

theorem length_flatMap' (l : List α) (f : α → List β) :
    (l.flatMap f).length = (l.map (fun a => (f a).length)).sum := by
  rw [List.flatMap, List.length_flatten, List.map_map]
  rfl

theorem sum_map_succ (g : Nat → Nat) (l : List Nat) :
    (l.map (fun i => g i + 1)).sum = (l.map g).sum + l.length := by
  induction l with
  | nil => rfl
  | cons a l ih =>
    simp only [List.map_cons, List.sum_cons, List.length_cons, ih]
    omega

theorem roundRobinPairs_length_sum (m : Nat) :
    (roundRobinPairs m).length = ((List.range m).map (fun i => m - (i + 1))).sum := by
  rw [roundRobinPairs, length_flatMap']
  congr 1
  apply List.map_congr_left
  intro i hi
  simp only [List.length_map, List.length_range']

theorem roundRobinPairs_length (n : Nat) : 2 * (roundRobinPairs n).length = n * (n - 1) := by
  induction n with
  | zero => rfl
  | succ m ih =>
    rw [roundRobinPairs_length_sum] at ih ⊢
    rw [List.range_succ, List.map_append]
    simp only [List.map_cons, List.map_nil, List.sum_append, List.sum_cons, List.sum_nil]
    have hstep : ((List.range m).map (fun i => m + 1 - (i + 1))).sum =
        ((List.range m).map (fun i => (m - (i + 1)) + 1)).sum := by
      congr 1
      apply List.map_congr_left
      intro i hi
      rw [List.mem_range] at hi
      omega
    rw [hstep, sum_map_succ]
    simp only [List.length_range]
    have hring : (m + 1) * ((m + 1) - 1) = m * (m - 1) + 2 * m := by
      cases m with
      | zero => rfl
      | succ t =>
        simp only [Nat.succ_sub_one]
        ring
    omega

def rrMatches (freshSeed : String) (now teamCount : Nat) (options : GenOptions) : List Match :=
  ((generateBracket freshSeed now .ROUND_ROBIN teamCount options).matches).getD []

theorem rrMatches_eq (freshSeed : String) (now teamCount : Nat) (options : GenOptions) :
    rrMatches freshSeed now teamCount options =
      roundRobinGo (teamCount / 2) (roundRobinPairs teamCount) 1 1 0 := rfl

/-- C6: `ROUND_ROBIN` puts exactly `n(n-1)/2` matches in the flat `matches`
field — one per iterated pair `(i, j)`, `i < j < n`, the pair list being
duplicate-free and complete — packed into rounds of at most `⌊n/2⌋`
matches, `matchNumber` being a within-round counter that resets at each
round boundary (match `k` lies in round `k / ⌊n/2⌋ + 1` with number
`k % ⌊n/2⌋ + 1`). -/
theorem roundRobin_spec (freshSeed : String) (now teamCount : Nat) (options : GenOptions) :
    (generateBracket freshSeed now .ROUND_ROBIN teamCount options).matches =
      some (rrMatches freshSeed now teamCount options) ∧
    (rrMatches freshSeed now teamCount options).length = teamCount * (teamCount - 1) / 2 ∧
    (rrMatches freshSeed now teamCount options).length = (roundRobinPairs teamCount).length ∧
    (roundRobinPairs teamCount).Nodup ∧
    (∀ i j : Nat, ((i, j) ∈ roundRobinPairs teamCount) ↔ (i < j ∧ j < teamCount)) ∧
    (∀ k : Fin (rrMatches freshSeed now teamCount options).length,
      ((rrMatches freshSeed now teamCount options).get k).round =
        k.val / (teamCount / 2) + 1 ∧
      ((rrMatches freshSeed now teamCount options).get k).matchNumber =
        k.val % (teamCount / 2) + 1 ∧
      ((rrMatches freshSeed now teamCount options).get k).matchNumber ≤ teamCount / 2) := by
  have hlen : (rrMatches freshSeed now teamCount options).length =
      (roundRobinPairs teamCount).length := by
    rw [rrMatches_eq, roundRobinGo_length]
  refine ⟨rfl, ?_, hlen, roundRobinPairs_nodup teamCount,
    fun i j => roundRobinPairs_mem teamCount (i, j), ?_⟩
  · have h2 := roundRobinPairs_length teamCount
    omega
  · intro k
    by_cases hf : 0 < teamCount / 2
    · have hklt : (k : Nat) < (roundRobinPairs teamCount).length := by
        rw [← hlen]
        exact k.isLt
      have h0 := roundRobinGo_getElem? (teamCount / 2) hf (roundRobinPairs teamCount)
        0 k.val hklt
      simp only [Nat.zero_div, Nat.zero_mod, Nat.zero_add] at h0
      have h1 : (rrMatches freshSeed now teamCount options)[(k : Nat)]? =
          some ((rrMatches freshSeed now teamCount options).get k) := by
        rw [List.getElem?_eq_getElem k.isLt]
        rfl
      have h2 : (rrMatches freshSeed now teamCount options)[(k : Nat)]? =
          (roundRobinGo (teamCount / 2) (roundRobinPairs teamCount) 1 1 0)[(k : Nat)]? := rfl
      rw [h2, h0] at h1
      have hg := (Option.some.inj h1).symm
      rw [hg]
      refine ⟨rfl, rfl, ?_⟩
      have := Nat.mod_lt (k : Nat) hf
      show (k : Nat) % (teamCount / 2) + 1 ≤ teamCount / 2
      omega
    · exfalso
      have htc : teamCount < 2 := by omega
      have hpairs : (roundRobinPairs teamCount).length = 0 := by
        interval_cases teamCount <;> decide
      have hklt := k.isLt
      omega

/-! ## C8/C10/C7 support: standings calculator -/

/-- The per-entry invariant claimed for all standings:
`points = 3·won + drawn` and `goalDifference = goalsFor − goalsAgainst`. -/
def standingInv (s : GroupStanding) : Prop :=
  s.points = 3 * s.won + s.drawn ∧
  s.goalDifference = (s.goalsFor : Int) - (s.goalsAgainst : Int)

theorem mapSet_inv (st : List (String × GroupStanding)) (k : String) (v : GroupStanding)
    (hst : ∀ p ∈ st, standingInv p.2) (hv : standingInv v) :
    ∀ p ∈ mapSet st k v, standingInv p.2 := by
  intro p hp
  rw [mapSet] at hp
  by_cases hc : st.any (fun q => q.1 == k)
  · rw [if_pos hc] at hp
    obtain ⟨q, hq, hpq⟩ := List.mem_map.mp hp
    by_cases hqk : q.1 = k
    · rw [if_pos hqk] at hpq
      rw [← hpq]
      exact hv
    · rw [if_neg hqk] at hpq
      rw [← hpq]
      exact hst q hq
  · rw [if_neg hc] at hp
    rcases List.mem_append.mp hp with h | h
    · exact hst p h
    · rw [List.mem_singleton] at h
      rw [h]
      exact hv

theorem initStandingsGo_inv : ∀ (ts : List String) (idx : Nat)
    (st : List (String × GroupStanding)), (∀ p ∈ st, standingInv p.2) →
    ∀ p ∈ initStandingsGo idx ts st, standingInv p.2 := by
  intro ts
  induction ts with
  | nil => intro idx st hst; exact hst
  | cons t ts ih =>
    intro idx st hst
    rw [initStandingsGo]
    apply ih
    apply mapSet_inv st t _ hst
    constructor
    · rfl
    · rfl

theorem applyMatchToStandings_found (st : List (String × GroupStanding)) (m : Match)
    (s1 s2 : GroupStanding) (h1 : mapGetVal st (m.team1Id.getD "") = some s1)
    (h2 : mapGetVal st (m.team2Id.getD "") = some s2) :
    applyMatchToStandings st m =
      applyMatchCore st (m.team1Id.getD "") (m.team2Id.getD "")
        (m.team1Score.getD 0) (m.team2Score.getD 0) := by
  rw [applyMatchToStandings, h1, h2]

theorem applyMatchToStandings_skip1 (st : List (String × GroupStanding)) (m : Match)
    (h1 : mapGetVal st (m.team1Id.getD "") = none) :
    applyMatchToStandings st m = st := by
  rw [applyMatchToStandings, h1]

theorem applyMatchToStandings_skip2 (st : List (String × GroupStanding)) (m : Match)
    (h2 : mapGetVal st (m.team2Id.getD "") = none) :
    applyMatchToStandings st m = st := by
  rw [applyMatchToStandings, h2]
  cases mapGetVal st (m.team1Id.getD "") <;> rfl

/-- The effect of `updStanding` on a single entry. -/
def updEntry (k : String) (f : GroupStanding → GroupStanding) (q : String × GroupStanding) :
    String × GroupStanding :=
  if q.1 = k then (q.1, f q.2) else q

theorem updEntry_fst (k : String) (f : GroupStanding → GroupStanding)
    (q : String × GroupStanding) : (updEntry k f q).1 = q.1 := by
  rw [updEntry]
  split
  · rfl
  · rfl

theorem updEntry_of_eq (k : String) (f : GroupStanding → GroupStanding)
    (q : String × GroupStanding) (h : q.1 = k) : updEntry k f q = (q.1, f q.2) := by
  rw [updEntry, if_pos h]

theorem updEntry_of_ne (k : String) (f : GroupStanding → GroupStanding)
    (q : String × GroupStanding) (h : ¬ q.1 = k) : updEntry k f q = q := by
  rw [updEntry, if_neg h]

theorem mem_updStanding (st : List (String × GroupStanding)) (k : String)
    (f : GroupStanding → GroupStanding) (p : String × GroupStanding)
    (hp : p ∈ updStanding st k f) : ∃ q, q ∈ st ∧ p = updEntry k f q := by
  rw [updStanding] at hp
  obtain ⟨q, hq, hpq⟩ := List.mem_map.mp hp
  exact ⟨q, hq, hpq.symm⟩

theorem applyMatchCore_inv (st : List (String × GroupStanding)) (t1 t2 : String)
    (score1 score2 : Nat) (hst : ∀ p ∈ st, standingInv p.2) :
    ∀ p ∈ applyMatchCore st t1 t2 score1 score2, standingInv p.2 := by
  intro p hp
  simp only [applyMatchCore] at hp
  by_cases hs1 : score2 < score1
  · rw [if_pos hs1] at hp
    obtain ⟨qB, hqB, hpB⟩ := mem_updStanding _ _ _ _ hp
    obtain ⟨qA, hqA, hpA⟩ := mem_updStanding _ _ _ _ hqB
    obtain ⟨q9, hq9, hp9⟩ := mem_updStanding _ _ _ _ hqA
    obtain ⟨q8, hq8, hp8⟩ := mem_updStanding _ _ _ _ hq9
    obtain ⟨q7, hq7, hp7⟩ := mem_updStanding _ _ _ _ hq8
    obtain ⟨q6, hq6, hp6⟩ := mem_updStanding _ _ _ _ hq7
    obtain ⟨q5, hq5, hp5⟩ := mem_updStanding _ _ _ _ hq6
    obtain ⟨q4, hq4, hp4⟩ := mem_updStanding _ _ _ _ hq5
    obtain ⟨q3, hq3, hp3⟩ := mem_updStanding _ _ _ _ hq4
    obtain ⟨q2, hq2m, hp2⟩ := mem_updStanding _ _ _ _ hq3
    obtain ⟨q1, hq1m, hp1⟩ := mem_updStanding _ _ _ _ hq2m
    obtain ⟨hia, hib⟩ := hst q1 hq1m
    subst hpB hpA hp9 hp8 hp7 hp6 hp5 hp4 hp3 hp2 hp1
    clear hp hqB hqA hq9 hq8 hq7 hq6 hq5 hq4 hq3 hq2m
    by_cases hk1 : q1.1 = t1 <;> by_cases hk2 : q1.1 = t2
    · have ht : t1 = t2 := hk1.symm.trans hk2
      simp only [updEntry_of_eq, updEntry_of_ne, updEntry_fst, hk1, hk2, ← ht, standingInv, not_false_eq_true, eq_self_iff_true]
      exact ⟨by omega, trivial⟩
    · have ht : ¬ (t1 = t2) := fun h => hk2 (hk1.trans h)
      simp only [updEntry_of_eq, updEntry_of_ne, updEntry_fst, hk1, hk2, ht, standingInv, not_false_eq_true, eq_self_iff_true]
      exact ⟨by omega, trivial⟩
    · have ht : ¬ (t2 = t1) := fun h => hk1 (hk2.trans h)
      simp only [updEntry_of_eq, updEntry_of_ne, updEntry_fst, hk1, hk2, ht, standingInv, not_false_eq_true, eq_self_iff_true]
      exact ⟨by omega, trivial⟩
    · simp only [updEntry_of_ne, updEntry_fst, hk1, hk2, standingInv, not_false_eq_true, eq_self_iff_true]
      exact ⟨hia, hib⟩
  · by_cases hs2 : score1 < score2
    · rw [if_neg hs1, if_pos hs2] at hp
      obtain ⟨qB, hqB, hpB⟩ := mem_updStanding _ _ _ _ hp
      obtain ⟨qA, hqA, hpA⟩ := mem_updStanding _ _ _ _ hqB
      obtain ⟨q9, hq9, hp9⟩ := mem_updStanding _ _ _ _ hqA
      obtain ⟨q8, hq8, hp8⟩ := mem_updStanding _ _ _ _ hq9
      obtain ⟨q7, hq7, hp7⟩ := mem_updStanding _ _ _ _ hq8
      obtain ⟨q6, hq6, hp6⟩ := mem_updStanding _ _ _ _ hq7
      obtain ⟨q5, hq5, hp5⟩ := mem_updStanding _ _ _ _ hq6
      obtain ⟨q4, hq4, hp4⟩ := mem_updStanding _ _ _ _ hq5
      obtain ⟨q3, hq3, hp3⟩ := mem_updStanding _ _ _ _ hq4
      obtain ⟨q2, hq2m, hp2⟩ := mem_updStanding _ _ _ _ hq3
      obtain ⟨q1, hq1m, hp1⟩ := mem_updStanding _ _ _ _ hq2m
      obtain ⟨hia, hib⟩ := hst q1 hq1m
      subst hpB hpA hp9 hp8 hp7 hp6 hp5 hp4 hp3 hp2 hp1
      clear hp hqB hqA hq9 hq8 hq7 hq6 hq5 hq4 hq3 hq2m
      by_cases hk1 : q1.1 = t1 <;> by_cases hk2 : q1.1 = t2
      · have ht : t1 = t2 := hk1.symm.trans hk2
        simp only [updEntry_of_eq, updEntry_of_ne, updEntry_fst, hk1, hk2, ← ht, standingInv,
          not_false_eq_true, eq_self_iff_true]
        exact ⟨by omega, trivial⟩
      · have ht : ¬ (t1 = t2) := fun h => hk2 (hk1.trans h)
        simp only [updEntry_of_eq, updEntry_of_ne, updEntry_fst, hk1, hk2, ht, standingInv,
          not_false_eq_true, eq_self_iff_true]
        exact ⟨by omega, trivial⟩
      · have ht : ¬ (t2 = t1) := fun h => hk1 (hk2.trans h)
        simp only [updEntry_of_eq, updEntry_of_ne, updEntry_fst, hk1, hk2, ht, standingInv,
          not_false_eq_true, eq_self_iff_true]
        exact ⟨by omega, trivial⟩
      · simp only [updEntry_of_ne, updEntry_fst, hk1, hk2, standingInv, not_false_eq_true,
          eq_self_iff_true]
        exact ⟨hia, hib⟩
    · rw [if_neg hs1, if_neg hs2] at hp
      obtain ⟨qB, hqB, hpB⟩ := mem_updStanding _ _ _ _ hp
      obtain ⟨qA, hqA, hpA⟩ := mem_updStanding _ _ _ _ hqB
      obtain ⟨qX, hqX, hpX⟩ := mem_updStanding _ _ _ _ hqA
      obtain ⟨q9, hq9, hp9⟩ := mem_updStanding _ _ _ _ hqX
      obtain ⟨q8, hq8, hp8⟩ := mem_updStanding _ _ _ _ hq9
      obtain ⟨q7, hq7, hp7⟩ := mem_updStanding _ _ _ _ hq8
      obtain ⟨q6, hq6, hp6⟩ := mem_updStanding _ _ _ _ hq7
      obtain ⟨q5, hq5, hp5⟩ := mem_updStanding _ _ _ _ hq6
      obtain ⟨q4, hq4, hp4⟩ := mem_updStanding _ _ _ _ hq5
      obtain ⟨q3, hq3, hp3⟩ := mem_updStanding _ _ _ _ hq4
      obtain ⟨q2, hq2m, hp2⟩ := mem_updStanding _ _ _ _ hq3
      obtain ⟨q1, hq1m, hp1⟩ := mem_updStanding _ _ _ _ hq2m
      obtain ⟨hia, hib⟩ := hst q1 hq1m
      subst hpB hpA hpX hp9 hp8 hp7 hp6 hp5 hp4 hp3 hp2 hp1
      clear hp hqB hqA hqX hq9 hq8 hq7 hq6 hq5 hq4 hq3 hq2m
      by_cases hk1 : q1.1 = t1 <;> by_cases hk2 : q1.1 = t2
      · have ht : t1 = t2 := hk1.symm.trans hk2
        simp only [updEntry_of_eq, updEntry_of_ne, updEntry_fst, hk1, hk2, ← ht, standingInv,
          not_false_eq_true, eq_self_iff_true]
        exact ⟨by omega, trivial⟩
      · have ht : ¬ (t1 = t2) := fun h => hk2 (hk1.trans h)
        simp only [updEntry_of_eq, updEntry_of_ne, updEntry_fst, hk1, hk2, ht, standingInv,
          not_false_eq_true, eq_self_iff_true]
        exact ⟨by omega, trivial⟩
      · have ht : ¬ (t2 = t1) := fun h => hk1 (hk2.trans h)
        simp only [updEntry_of_eq, updEntry_of_ne, updEntry_fst, hk1, hk2, ht, standingInv,
          not_false_eq_true, eq_self_iff_true]
        exact ⟨by omega, trivial⟩
      · simp only [updEntry_of_ne, updEntry_fst, hk1, hk2, standingInv, not_false_eq_true,
          eq_self_iff_true]
        exact ⟨hia, hib⟩
theorem applyMatch_inv (st : List (String × GroupStanding)) (m : Match)
    (hst : ∀ p ∈ st, standingInv p.2) :
    ∀ p ∈ applyMatchToStandings st m, standingInv p.2 := by
  cases h1 : mapGetVal st (m.team1Id.getD "") with
  | none => rw [applyMatchToStandings_skip1 st m h1]; exact hst
  | some s1 =>
    cases h2 : mapGetVal st (m.team2Id.getD "") with
    | none => rw [applyMatchToStandings_skip2 st m h2]; exact hst
    | some s2 =>
      rw [applyMatchToStandings_found st m s1 s2 h1 h2]
      exact applyMatchCore_inv st _ _ _ _ hst

theorem foldl_applyMatch_inv (ms : List Match) :
    ∀ (st : List (String × GroupStanding)), (∀ p ∈ st, standingInv p.2) →
    ∀ p ∈ ms.foldl applyMatchToStandings st, standingInv p.2 := by
  induction ms with
  | nil => intro st hst; simpa using hst
  | cons m ms ih => intro st hst; exact ih _ (applyMatch_inv st m hst)

theorem standingsTable_inv (groupTeamIds : List String) (ms : List Match) :
    ∀ p ∈ standingsTable groupTeamIds ms, standingInv p.2 :=
  foldl_applyMatch_inv _ _ (initStandingsGo_inv groupTeamIds 0 [] (by intro p hp; cases hp))

theorem mem_mapIdxFrom (f : Nat → α → β) : ∀ (s : Nat) (l : List α) (b : β),
    b ∈ mapIdxFrom f s l → ∃ i a, a ∈ l ∧ b = f i a := by
  intro s l
  induction l generalizing s with
  | nil => intro b hb; cases hb
  | cons x xs ih =>
    intro b hb
    rw [mapIdxFrom] at hb
    rcases List.mem_cons.mp hb with h | h
    · exact ⟨s, x, List.mem_cons_self x xs, h⟩
    · obtain ⟨i, a, ha, hba⟩ := ih (s + 1) b h
      exact ⟨i, a, List.mem_cons_of_mem x ha, hba⟩

/-- C8: for every team in the output of `calculateGroupStandings`,
`points = 3·won + 1·drawn` and `goalDifference = goalsFor − goalsAgainst`
hold exactly, for any input roster and match list. -/
theorem calculateGroupStandings_invariants (groupTeamIds : List String) (ms : List Match) :
    ∀ s ∈ calculateGroupStandings groupTeamIds ms,
      s.points = 3 * s.won + 1 * s.drawn ∧
      s.goalDifference = (s.goalsFor : Int) - (s.goalsAgainst : Int) := by
  intro s hs
  simp only [calculateGroupStandings] at hs
  obtain ⟨i, a, ha, hsa⟩ := mem_mapIdxFrom _ _ _ _ hs
  have ham : a ∈ (standingsTable groupTeamIds ms).map (·.2) :=
    (List.mergeSort_perm _ leStanding).mem_iff.mp ha
  obtain ⟨p, hp, hpa⟩ := List.mem_map.mp ham
  obtain ⟨h1, h2⟩ : standingInv a := hpa ▸ standingsTable_inv groupTeamIds ms p hp
  subst hsa
  exact ⟨by simpa using by omega, by simpa using h2⟩

def c8Roster : List String := ["A", "B"]

def c8Matches : List Match :=
  [{ id := "m1", round := 1, matchNumber := 1, team1Id := some "A", team2Id := some "B",
     team1Score := some 2, team2Score := some 1, status := MatchStatus.COMPLETED }]

def c8Standing : GroupStanding :=
  { teamId := "A", played := 1, won := 1, drawn := 0, lost := 0, goalsFor := 2,
    goalsAgainst := 1, goalDifference := 1, points := 3, position := 1 }

/-- Witness for C8 at a concrete roster and completed match. -/
theorem calculateGroupStandings_invariants_witness :
    c8Standing ∈ calculateGroupStandings c8Roster c8Matches ∧
      (c8Standing.points = 3 * c8Standing.won + 1 * c8Standing.drawn ∧
       c8Standing.goalDifference =
         (c8Standing.goalsFor : Int) - (c8Standing.goalsAgainst : Int)) := by
  have hm : c8Standing ∈ calculateGroupStandings c8Roster c8Matches := by
    simp [calculateGroupStandings, standingsTable, initStandingsGo, mapSet, completedWithTeams,
      truthyId, applyMatchToStandings, applyMatchCore, updStanding, mapGetVal, List.mergeSort,
      leStanding, mapIdxFrom, c8Roster, c8Matches, c8Standing]
  exact ⟨hm, calculateGroupStandings_invariants c8Roster c8Matches c8Standing hm⟩

/-! ## C10: missing scores on a completed match -/

def c10Roster : List String := ["A", "B"]

/-- A COMPLETED match with both team ids present and neither score recorded. -/
def c10Match : Match :=
  { id := "m1", round := 1, matchNumber := 1, team1Id := some "A", team2Id := some "B",
    status := MatchStatus.COMPLETED }

def c10DrawA : GroupStanding :=
  { teamId := "A", played := 1, won := 0, drawn := 1, lost := 0, goalsFor := 0,
    goalsAgainst := 0, goalDifference := 0, points := 1, position := 1 }

def c10DrawB : GroupStanding :=
  { teamId := "B", played := 1, won := 0, drawn := 1, lost := 0, goalsFor := 0,
    goalsAgainst := 0, goalDifference := 0, points := 1, position := 2 }

/-- C10 (amended): each absent score of a processed match defaults to 0
(`score || 0`), so a COMPLETED match with both team ids present and BOTH
scores absent is processed exactly like a recorded 0-0 match — a draw that
increments both teams' `played` and `drawn` and gives each 1 point — rather
than being skipped. -/
theorem scorelessCompleted_counts_as_draw (st : List (String × GroupStanding)) (m : Match)
    (h1 : m.team1Score = none) (h2 : m.team2Score = none) :
    applyMatchToStandings st m =
      applyMatchToStandings st { m with team1Score := some 0, team2Score := some 0 } ∧
    completedWithTeams c10Match = true ∧
    calculateGroupStandings c10Roster [c10Match] = [c10DrawA, c10DrawB] := by
  refine ⟨?_, by rfl, ?_⟩
  · simp only [applyMatchToStandings, applyMatchCore, h1, h2, Option.getD_none, Option.getD_some]
  · simp [calculateGroupStandings, standingsTable, initStandingsGo, mapSet, completedWithTeams,
      truthyId, applyMatchToStandings, applyMatchCore, updStanding, mapGetVal, List.mergeSort,
      leStanding, mapIdxFrom, c10Roster, c10Match, c10DrawA, c10DrawB]

/-- A COMPLETED match with only `team1Score` absent: the absent score
defaults to 0 but the match is counted 0-1, a win for team 2 — team A ends
with `drawn = 0` and `points = 0`, refuting the claim that any match with
`team1Score` or `team2Score` absent is counted as a 0-0 draw giving both
teams a point. -/
theorem oneSidedMissingScore_not_draw :
    (calculateGroupStandings c10Roster
        [{ c10Match with team2Score := some 1 }]).map
      (fun s => (s.teamId, s.played, s.drawn, s.points)) =
      [("B", 1, 0, 3), ("A", 1, 0, 0)] := by
  simp [calculateGroupStandings, standingsTable, initStandingsGo, mapSet, completedWithTeams,
    truthyId, applyMatchToStandings, applyMatchCore, updStanding, mapGetVal, List.mergeSort,
    leStanding, mapIdxFrom, c10Roster, c10Match]

/-- Witness for C10 at the concrete scoreless match. -/
theorem scorelessCompleted_counts_as_draw_witness :
    c10Match.team1Score = none ∧ c10Match.team2Score = none ∧
      (applyMatchToStandings [] c10Match =
        applyMatchToStandings []
          { c10Match with team1Score := some 0, team2Score := some 0 } ∧
      completedWithTeams c10Match = true ∧
      calculateGroupStandings c10Roster [c10Match] = [c10DrawA, c10DrawB]) :=
  ⟨rfl, rfl, scorelessCompleted_counts_as_draw [] c10Match rfl rfl⟩

/-! ## C7 support: comparator laws and sortedness -/

theorem leStanding_trans (a b c : GroupStanding) (hab : leStanding a b = true)
    (hbc : leStanding b c = true) : leStanding a c = true := by
  simp only [leStanding, Bool.or_eq_true, Bool.and_eq_true, decide_eq_true_eq] at hab hbc ⊢
  omega

theorem leStanding_total (a b : GroupStanding) :
    (leStanding a b || leStanding b a) = true := by
  simp only [leStanding, Bool.or_eq_true, Bool.and_eq_true, decide_eq_true_eq]
  omega

theorem pairwise_mapIdxFrom (R : α → α → Prop) (S : β → β → Prop) (f : Nat → α → β)
    (h : ∀ (i j : Nat) (a b : α), R a b → S (f i a) (f j b)) :
    ∀ (s : Nat) (l : List α), l.Pairwise R → (mapIdxFrom f s l).Pairwise S := by
  intro s l
  induction l generalizing s with
  | nil => intro _; exact List.Pairwise.nil
  | cons x xs ih =>
    intro hp
    rcases List.pairwise_cons.mp hp with ⟨hx, hxs⟩
    rw [mapIdxFrom]
    refine List.pairwise_cons.mpr ⟨?_, ih (s + 1) hxs⟩
    intro b hb
    obtain ⟨i, a, ha, hba⟩ := mem_mapIdxFrom f (s + 1) xs b hb
    exact hba ▸ h s i x a (hx a ha)

theorem leStanding_position_blind (a b : GroupStanding) (i j : Nat) :
    leStanding { a with position := i } { b with position := j } = leStanding a b := rfl

def c7Roster : List String := ["C", "A", "D", "B"]

def c7Matches : List Match :=
  [{ id := "m1", round := 1, matchNumber := 1, team1Id := some "A", team2Id := some "C",
     team1Score := some 4, team2Score := some 0, status := MatchStatus.COMPLETED },
   { id := "m2", round := 1, matchNumber := 2, team1Id := some "A", team2Id := some "D",
     team1Score := some 1, team2Score := some 0, status := MatchStatus.COMPLETED },
   { id := "m3", round := 2, matchNumber := 1, team1Id := some "B", team2Id := some "C",
     team1Score := some 2, team2Score := some 0, status := MatchStatus.COMPLETED },
   { id := "m4", round := 2, matchNumber := 2, team1Id := some "B", team2Id := some "D",
     team1Score := some 1, team2Score := some 0, status := MatchStatus.COMPLETED }]

/-- C7: `calculateGroupStandings` returns the standings sorted by the
descending ladder points / goalDifference / goalsFor (adjacent-pairwise in
the comparator, hence totally ordered by it), stable beyond that (tied
entries keep their pre-sort order), and reassigns `position` as the 1-based
post-sort index; concretely, with equal points a team at GD +5 ranks
strictly above one at GD +3. -/
theorem calculateGroupStandings_sorting (g : List String) (ms : List Match) :
    List.Pairwise (fun a b => leStanding a b = true) (calculateGroupStandings g ms) ∧
    (∀ (i : Nat) (h : i < (calculateGroupStandings g ms).length),
      ((calculateGroupStandings g ms).get ⟨i, h⟩).position = i + 1) ∧
    (∀ a b : GroupStanding, [a, b].Sublist ((standingsTable g ms).map (·.2)) →
      leStanding a b = true →
      [a, b].Sublist (((standingsTable g ms).map (·.2)).mergeSort leStanding)) ∧
    calculateGroupStandings g ms =
      mapIdxFrom (fun i s => { s with position := i + 1 }) 0
        (((standingsTable g ms).map (·.2)).mergeSort leStanding) ∧
    (calculateGroupStandings c7Roster c7Matches).map
        (fun s => (s.teamId, s.points, s.goalDifference, s.position)) =
      [("A", 6, 5, 1), ("B", 6, 3, 2), ("D", 0, -2, 3), ("C", 0, -6, 4)] := by
  refine ⟨?_, ?_, ?_, rfl, ?_⟩
  · have hs := @List.sorted_mergeSort GroupStanding leStanding
      (fun a b c => leStanding_trans a b c) leStanding_total
      ((standingsTable g ms).map (·.2))
    exact pairwise_mapIdxFrom _ _ _
      (fun i j a b hab => (leStanding_position_blind a b (i + 1) (j + 1)).trans hab) 0 _ hs
  · intro i h
    simp only [calculateGroupStandings] at h ⊢
    have hl : i < (((standingsTable g ms).map (·.2)).mergeSort leStanding).length := by
      rw [← mapIdxFrom_length (fun i s => { s with position := i + 1 }) 0]
      exact h
    have h2 := mapIdxFrom_getElem? (fun i s => { s with position := i + 1 })
      (((standingsTable g ms).map (·.2)).mergeSort leStanding) 0 i
    rw [List.getElem?_eq_getElem hl] at h2
    rw [List.get_eq_getElem, List.getElem_eq_iff.mpr h2]
    simp
  · intro a b hsub hle
    refine List.sublist_mergeSort (fun a b c => leStanding_trans a b c) leStanding_total
      ?_ hsub
    exact List.pairwise_pair.mpr hle
  · simp [calculateGroupStandings, standingsTable, initStandingsGo, mapSet, completedWithTeams,
      truthyId, applyMatchToStandings, applyMatchCore, updStanding, mapGetVal, List.mergeSort,
      leStanding, mapIdxFrom, c7Roster, c7Matches]

def c7RowA : GroupStanding :=
  { teamId := "A", played := 2, won := 2, drawn := 0, lost := 0, goalsFor := 5,
    goalsAgainst := 0, goalDifference := 5, points := 6, position := 2 }

def c7RowB : GroupStanding :=
  { teamId := "B", played := 2, won := 2, drawn := 0, lost := 0, goalsFor := 3,
    goalsAgainst := 0, goalDifference := 3, points := 6, position := 4 }

/-- Witness for C7 at the concrete roster and matches. -/
theorem calculateGroupStandings_sorting_witness :
    ∃ h : 0 < (calculateGroupStandings c7Roster c7Matches).length,
      ((calculateGroupStandings c7Roster c7Matches).get ⟨0, h⟩).position = 0 + 1 ∧
      [c7RowA, c7RowB].Sublist
        (((standingsTable c7Roster c7Matches).map (·.2)).mergeSort leStanding) := by
  have hlen : 0 < (calculateGroupStandings c7Roster c7Matches).length := by
    simp [calculateGroupStandings, standingsTable, initStandingsGo, mapSet, completedWithTeams,
      truthyId, applyMatchToStandings, applyMatchCore, updStanding, mapGetVal, List.mergeSort,
      leStanding, mapIdxFrom, c7Roster, c7Matches]
  have hsub : [c7RowA, c7RowB].Sublist ((standingsTable c7Roster c7Matches).map (·.2)) := by
    have ht : (standingsTable c7Roster c7Matches).map (·.2) =
        [{ teamId := "C", played := 2, won := 0, drawn := 0, lost := 2, goalsFor := 0,
           goalsAgainst := 6, goalDifference := -6, points := 0, position := 1 },
         c7RowA,
         { teamId := "D", played := 2, won := 0, drawn := 0, lost := 2, goalsFor := 0,
           goalsAgainst := 2, goalDifference := -2, points := 0, position := 3 },
         c7RowB] := by
      simp [standingsTable, initStandingsGo, mapSet, completedWithTeams, truthyId,
        applyMatchToStandings, applyMatchCore, updStanding, mapGetVal, c7Roster, c7Matches,
        c7RowA, c7RowB]
    rw [ht]
    decide
  exact ⟨hlen, (calculateGroupStandings_sorting c7Roster c7Matches).2.1 0 hlen,
    (calculateGroupStandings_sorting c7Roster c7Matches).2.2.1 c7RowA c7RowB hsub (by decide)⟩

/-! ## C1: seeding slot distinctness -/

/-- All first-round team-id slots of a bracket, in match order
(`team1Id` then `team2Id` per match). -/
def firstRoundSlots (b : BracketData) : List (Option String) :=
  match b.playoffRounds with
  | some (r :: _) => r.«matches».flatMap (fun m => [m.team1Id, m.team2Id])
  | _ => []

theorem flatMapPair_length (l : List Match) :
    (l.flatMap fun m => [m.team1Id, m.team2Id]).length = 2 * l.length := by
  induction l with
  | nil => rfl
  | cons x xs ih =>
    rw [List.flatMap_cons]
    simp only [List.length_append, List.length_cons, List.length_nil, ih]
    omega

theorem flatMapPair_getElem?_even :
    ∀ (l : List Match) (i : Nat),
      (l.flatMap fun m => [m.team1Id, m.team2Id])[2 * i]? = l[i]?.map (fun m => m.team1Id) := by
  intro l
  induction l with
  | nil => intro i; simp
  | cons x xs ih =>
    intro i
    rw [List.flatMap_cons]
    cases i with
    | zero => simp
    | succ i =>
      have h : 2 * (i + 1) = 2 * i + 1 + 1 := by ring
      rw [h]
      show (x.team1Id :: x.team2Id :: xs.flatMap fun m => [m.team1Id, m.team2Id])[2 * i + 1 + 1]? =
        _
      rw [List.getElem?_cons_succ, List.getElem?_cons_succ, ih i, List.getElem?_cons_succ]

theorem flatMapPair_getElem?_odd :
    ∀ (l : List Match) (i : Nat),
      (l.flatMap fun m => [m.team1Id, m.team2Id])[2 * i + 1]? =
        l[i]?.map (fun m => m.team2Id) := by
  intro l
  induction l with
  | nil => intro i; simp
  | cons x xs ih =>
    intro i
    cases i with
    | zero => simp
    | succ i =>
      rw [List.flatMap_cons]
      have h : 2 * (i + 1) + 1 = 2 * i + 1 + 1 + 1 := by ring
      rw [h]
      show (x.team1Id :: x.team2Id ::
          xs.flatMap fun m => [m.team1Id, m.team2Id])[2 * i + 1 + 1 + 1]? = _
      rw [List.getElem?_cons_succ, List.getElem?_cons_succ, ih i, List.getElem?_cons_succ]

/-- Distinctness of an interleaved top-vs-bottom slot assignment: if slot
`2a` holds id `a` and slot `2a + 1` holds id `n - 1 - a` of a duplicate-free
id list, and only the top half of the ids is used for the even slots, all
slots are pairwise distinct. -/
theorem interleave_nodup (ids : List String) (hnd : ids.Nodup) (sl : List (Option String))
    (mc : Nat) (hslen : sl.length = 2 * mc) (hmc : 2 * mc ≤ ids.length)
    (heven : ∀ a, a < mc → sl[2 * a]? = ids[a]?.map some)
    (hodd : ∀ a, a < mc → sl[2 * a + 1]? = ids[ids.length - 1 - a]?.map some) :
    sl.Nodup := by
  rw [List.nodup_iff_getElem?_ne_getElem?]
  intro i j hij hjlen hEq
  rw [hslen] at hjlen
  have key : ∀ k, k < 2 * mc → ∃ t, t < ids.length ∧ sl[k]? = ids[t]?.map some ∧
      ((k % 2 = 0 ∧ t = k / 2) ∨ (k % 2 = 1 ∧ t = ids.length - 1 - k / 2)) := by
    intro k hk
    rcases Nat.even_or_odd k with ⟨a, ha⟩ | ⟨a, ha⟩
    · have ha2 : k = 2 * a := by omega
      subst ha2
      exact ⟨a, by omega, heven a (by omega), Or.inl ⟨by omega, by omega⟩⟩
    · have ha2 : k = 2 * a + 1 := by omega
      subst ha2
      exact ⟨ids.length - 1 - a, by omega, hodd a (by omega), Or.inr ⟨by omega, by omega⟩⟩
  obtain ⟨t1, ht1, hv1, hc1⟩ := key i (by omega)
  obtain ⟨t2, ht2, hv2, hc2⟩ := key j (by omega)
  rw [hv1, hv2] at hEq
  have hts : ids[t1]? = ids[t2]? := Option.map_injective (Option.some_injective _) hEq
  have htt := List.getElem?_inj ht1 hnd hts
  rcases hc1 with ⟨hp1, hq1⟩ | ⟨hp1, hq1⟩ <;> rcases hc2 with ⟨hp2, hq2⟩ | ⟨hp2, hq2⟩ <;> omega

/-- C1 (amended): if the collected advancing teams carry pairwise-distinct
team ids and the first playoff round has at most `⌊advancing/2⌋` matches,
then `seedTeamsIntoBracket` assigns no team id to more than one first-round
match slot. -/
theorem seedTeams_slots_nodup (gs : List (String × List GroupStanding)) (apg : Nat)
    (b : BracketData) (firstRound : PlayoffRound) (rest : List PlayoffRound)
    (hb : b.playoffRounds = some (firstRound :: rest))
    (hnd : (((collectAdvancing gs apg).mergeSort leAdvancing).map
      (fun t => t.teamId)).Nodup)
    (hlen : 2 * firstRound.«matches».length ≤ (collectAdvancing gs apg).length) :
    (firstRoundSlots (seedTeamsIntoBracket gs apg b)).Nodup := by
  simp only [seedTeamsIntoBracket, hb, firstRoundSlots]
  have hladv : ((collectAdvancing gs apg).mergeSort leAdvancing).length =
      (collectAdvancing gs apg).length :=
    (List.mergeSort_perm (collectAdvancing gs apg) leAdvancing).length_eq
  refine interleave_nodup
    (((collectAdvancing gs apg).mergeSort leAdvancing).map (fun t => t.teamId)) hnd _
    firstRound.«matches».length ?_ ?_ ?_ ?_
  · rw [flatMapPair_length, mapIdxFrom_length]
  · rw [List.length_map, hladv]
    exact hlen
  · intro a ha
    rw [flatMapPair_getElem?_even, mapIdxFrom_getElem?, List.getElem?_eq_getElem ha]
    have hab : a < ((collectAdvancing gs apg).mergeSort leAdvancing).length := by omega
    have e1 : listGetInt ((collectAdvancing gs apg).mergeSort leAdvancing)
        ((0 + a : Nat) : Int) =
        some (((collectAdvancing gs apg).mergeSort leAdvancing).get ⟨a, hab⟩) := by
      rw [listGetInt, if_pos (by omega), Int.toNat_natCast, Nat.zero_add,
        List.getElem?_eq_getElem hab]
      rfl
    have hab2 : ((collectAdvancing gs apg).mergeSort leAdvancing).length - 1 - (0 + a) <
        ((collectAdvancing gs apg).mergeSort leAdvancing).length := by omega
    have e2 : listGetInt ((collectAdvancing gs apg).mergeSort leAdvancing)
        ((((collectAdvancing gs apg).mergeSort leAdvancing).length : Int) - 1 -
          ((0 + a : Nat) : Int)) =
        some (((collectAdvancing gs apg).mergeSort leAdvancing).get
          ⟨((collectAdvancing gs apg).mergeSort leAdvancing).length - 1 - (0 + a), hab2⟩) := by
      rw [listGetInt, if_pos (by omega)]
      have htn : ((((collectAdvancing gs apg).mergeSort leAdvancing).length : Int) - 1 -
          ((0 + a : Nat) : Int)).toNat =
          ((collectAdvancing gs apg).mergeSort leAdvancing).length - 1 - (0 + a) := by
        omega
      rw [htn, List.getElem?_eq_getElem hab2]
      rfl
    simp only [Option.map_some, e1, e2, List.getElem?_map, List.getElem?_eq_getElem hab]
    rfl
  · intro a ha
    rw [flatMapPair_getElem?_odd, mapIdxFrom_getElem?, List.getElem?_eq_getElem ha]
    have hab : a < ((collectAdvancing gs apg).mergeSort leAdvancing).length := by omega
    have e1 : listGetInt ((collectAdvancing gs apg).mergeSort leAdvancing)
        ((0 + a : Nat) : Int) =
        some (((collectAdvancing gs apg).mergeSort leAdvancing).get ⟨a, hab⟩) := by
      rw [listGetInt, if_pos (by omega), Int.toNat_natCast, Nat.zero_add,
        List.getElem?_eq_getElem hab]
      rfl
    have hab2 : ((collectAdvancing gs apg).mergeSort leAdvancing).length - 1 - (0 + a) <
        ((collectAdvancing gs apg).mergeSort leAdvancing).length := by omega
    have e2 : listGetInt ((collectAdvancing gs apg).mergeSort leAdvancing)
        ((((collectAdvancing gs apg).mergeSort leAdvancing).length : Int) - 1 -
          ((0 + a : Nat) : Int)) =
        some (((collectAdvancing gs apg).mergeSort leAdvancing).get
          ⟨((collectAdvancing gs apg).mergeSort leAdvancing).length - 1 - (0 + a), hab2⟩) := by
      rw [listGetInt, if_pos (by omega)]
      have htn : ((((collectAdvancing gs apg).mergeSort leAdvancing).length : Int) - 1 -
          ((0 + a : Nat) : Int)).toNat =
          ((collectAdvancing gs apg).mergeSort leAdvancing).length - 1 - (0 + a) := by
        omega
      rw [htn, List.getElem?_eq_getElem hab2]
      rfl
    have hlm : ((((collectAdvancing gs apg).mergeSort leAdvancing).map
        (fun t => t.teamId)).length - 1 - a) =
        ((collectAdvancing gs apg).mergeSort leAdvancing).length - 1 - (0 + a) := by
      rw [List.length_map]
      omega
    rw [hlm]
    simp only [Option.map_some, e1, e2, List.getElem?_map, List.getElem?_eq_getElem hab2]
    rfl

def c1Standings : List (String × List GroupStanding) :=
  [("g1",
    [{ teamId := "A", played := 0, won := 0, drawn := 0, lost := 0, goalsFor := 0,
       goalsAgainst := 0, goalDifference := 0, points := 0, position := 1 },
     { teamId := "B", played := 0, won := 0, drawn := 0, lost := 0, goalsFor := 0,
       goalsAgainst := 0, goalDifference := 0, points := 0, position := 2 },
     { teamId := "C", played := 0, won := 0, drawn := 0, lost := 0, goalsFor := 0,
       goalsAgainst := 0, goalDifference := 0, points := 0, position := 3 }])]

def c1Bracket : BracketData :=
  { type := BracketType.GROUPS_PLUS_KNOCKOUT, playoffRounds := some
      [{ roundNumber := 1, roundName := "Semi-Finals", «matches» :=
           [{ id := "match_1", round := 1, matchNumber := 1, status := MatchStatus.PENDING },
            { id := "match_2", round := 1, matchNumber := 2, status := MatchStatus.PENDING }] }] }

/-- C1 counterexample: one group of three advancing teams seeded into a
two-match first round assigns team "B" to both slots of the second match
(slot indices 1 and 3 − 1 − 1 both select "B"), so a team id occupies more
than one first-round slot. -/
theorem seedTeams_duplicate_slot :
    firstRoundSlots (seedTeamsIntoBracket c1Standings 3 c1Bracket) =
      [some "A", some "C", some "B", some "B"] ∧
    ¬ (firstRoundSlots (seedTeamsIntoBracket c1Standings 3 c1Bracket)).Nodup := by
  have h : firstRoundSlots (seedTeamsIntoBracket c1Standings 3 c1Bracket) =
      [some "A", some "C", some "B", some "B"] := by
    simp [firstRoundSlots, seedTeamsIntoBracket, collectAdvancing, leAdvancing, listGetInt,
      mapIdxFrom, List.mergeSort, c1Standings, c1Bracket]
  rw [h]
  exact ⟨rfl, by decide⟩

def c1GoodStandings : List (String × List GroupStanding) :=
  [("g1",
    [{ teamId := "A", played := 0, won := 0, drawn := 0, lost := 0, goalsFor := 0,
       goalsAgainst := 0, goalDifference := 0, points := 0, position := 1 },
     { teamId := "B", played := 0, won := 0, drawn := 0, lost := 0, goalsFor := 0,
       goalsAgainst := 0, goalDifference := 0, points := 0, position := 2 }]),
   ("g2",
    [{ teamId := "C", played := 0, won := 0, drawn := 0, lost := 0, goalsFor := 0,
       goalsAgainst := 0, goalDifference := 0, points := 0, position := 1 },
     { teamId := "D", played := 0, won := 0, drawn := 0, lost := 0, goalsFor := 0,
       goalsAgainst := 0, goalDifference := 0, points := 0, position := 2 }])]

def c1GoodRound : PlayoffRound :=
  { roundNumber := 1, roundName := "Semi-Finals", «matches» :=
      [{ id := "match_1", round := 1, matchNumber := 1, status := MatchStatus.PENDING },
       { id := "match_2", round := 1, matchNumber := 2, status := MatchStatus.PENDING }] }

def c1GoodBracket : BracketData :=
  { type := BracketType.GROUPS_PLUS_KNOCKOUT, playoffRounds := some [c1GoodRound] }

/-- Witness for C1 (amended) at two groups of two advancing teams each and
a two-match first round. -/
theorem seedTeams_slots_nodup_witness :
    c1GoodBracket.playoffRounds = some (c1GoodRound :: []) ∧
    (((collectAdvancing c1GoodStandings 2).mergeSort leAdvancing).map
      (fun t => t.teamId)).Nodup ∧
    2 * c1GoodRound.«matches».length ≤ (collectAdvancing c1GoodStandings 2).length ∧
    (firstRoundSlots (seedTeamsIntoBracket c1GoodStandings 2 c1GoodBracket)).Nodup := by
  have hb : c1GoodBracket.playoffRounds = some (c1GoodRound :: []) := rfl
  have hnd : (((collectAdvancing c1GoodStandings 2).mergeSort leAdvancing).map
      (fun t => t.teamId)).Nodup := by
    have he : ((collectAdvancing c1GoodStandings 2).mergeSort leAdvancing).map
        (fun t => t.teamId) = ["A", "C", "B", "D"] := by
      simp [collectAdvancing, leAdvancing, List.mergeSort, c1GoodStandings]
    rw [he]
    decide
  have hlen : 2 * c1GoodRound.«matches».length ≤
      (collectAdvancing c1GoodStandings 2).length := by decide
  exact ⟨hb, hnd, hlen,
    seedTeams_slots_nodup c1GoodStandings 2 c1GoodBracket c1GoodRound [] hb hnd hlen⟩

namespace Draw

theorem buildGroupsGo_length (tid : String) (size : Nat) :
    ∀ (rem idx : Nat) (teams : List String),
      (buildGroupsGo tid size rem idx teams).length = rem := by
  intro rem
  induction rem with
  | zero => intro idx teams; rfl
  | succ rem ih =>
    intro idx teams
    rw [buildGroupsGo]
    simp only [List.length_cons, ih]

theorem buildGroupsGo_tid (tid : String) (size : Nat) :
    ∀ (rem idx : Nat) (teams : List String),
      ∀ g ∈ buildGroupsGo tid size rem idx teams, g.tournamentId = tid := by
  intro rem
  induction rem with
  | zero => intro idx teams g hg; cases hg
  | succ rem ih =>
    intro idx teams g hg
    rw [buildGroupsGo] at hg
    rcases List.mem_cons.mp hg with h | h
    · rw [h]
    · exact ih (idx + 1) (teams.drop size) g h

/-- C9 (spec-modelled): a tournament whose `drawCompleted` flag is already
true fails the already-drawn check (which runs after found/authorization
and before any mutation), so the call returns an error and changes nothing;
consequently, when a first `executeDraw` succeeds, a second call on the
resulting state fails with the already-drawn error and the successful
state holds exactly `numberOfGroups` groups for the tournament — none
duplicated. -/
theorem executeDraw_already_drawn (shuffle shuffle2 : List String → List String)
    (seed1 seed2 : String) (st : DrawState) (tid uid uid2 : String)
    (role role2 : UserRole) (n n2 : Nat) (t : Tournament)
    (hfind : st.tournaments.find? (fun u => u.id == tid) = some t)
    (hauth : ¬ (t.organizerId ≠ uid ∧ role ≠ UserRole.ADMIN))
    (hauth2 : ¬ (t.organizerId ≠ uid2 ∧ role2 ≠ UserRole.ADMIN)) :
    (t.drawCompleted = true →
      executeDraw shuffle seed1 st tid uid role n = .error .alreadyDrawn) ∧
    (∀ st', executeDraw shuffle seed1 st tid uid role n = .ok st' →
      executeDraw shuffle2 seed2 st' tid uid2 role2 n2 = .error .alreadyDrawn ∧
      (st'.groups.filter (fun g => g.tournamentId = tid)).length = n) := by
  have htid : t.id = tid := by
    have := List.find?_some hfind
    simpa using this
  constructor
  · intro hd
    rw [executeDraw, hfind]
    simp only [if_neg hauth, hd]
    rfl
  · intro st' hok
    simp only [executeDraw, hfind, if_neg hauth] at hok
    by_cases hd : t.drawCompleted
    · rw [if_pos hd] at hok
      simp at hok
    · rw [if_neg (by simp [hd])] at hok
      by_cases hs : t.status ≠ TournamentStatus.PUBLISHED ∧ t.status ≠ TournamentStatus.ONGOING
      · rw [if_pos hs] at hok
        simp at hok
      · rw [if_neg hs] at hok
        by_cases h2 : ((st.registrations.filter fun r =>
            r.tournamentId == tid && r.status == RegistrationStatus.APPROVED).map
              (fun r => r.clubId)).length < 2
        · rw [if_pos h2] at hok
          simp at hok
        · rw [if_neg h2] at hok
          by_cases h3 : ((st.registrations.filter fun r =>
              r.tournamentId == tid && r.status == RegistrationStatus.APPROVED).map
                (fun r => r.clubId)).length < n
          · rw [if_pos h3] at hok
            simp at hok
          · rw [if_neg h3] at hok
            have hst' := (Except.ok.inj hok).symm
            subst hst'
            constructor
            · have hfind2 : (st.tournaments.map fun u : Tournament =>
                  if u.id = tid then
                    { u with drawCompleted := true, drawSeed := some seed1 } else u).find?
                    (fun u => u.id == tid) =
                  some { t with drawCompleted := true, drawSeed := some seed1 } := by
                rw [List.find?_map]
                have hpe : ((fun u : Tournament => u.id == tid) ∘ fun u : Tournament =>
                    if u.id = tid then
                      { u with drawCompleted := true, drawSeed := some seed1 } else u) =
                    (fun u => u.id == tid) := by
                  funext u
                  by_cases h : u.id = tid
                  · simp [Function.comp, h]
                  · simp [Function.comp, h]
                rw [hpe, hfind]
                simp [htid]
              rw [executeDraw]
              simp only [hfind2]
              rw [if_neg (by simpa using hauth2)]
              rfl
            · simp only [List.filter_append]
              have he1 : (st.groups.filter (fun g => g.tournamentId ≠ tid)).filter
                  (fun g => g.tournamentId = tid) = [] := by
                rw [List.filter_eq_nil_iff]
                intro g hg
                have := List.of_mem_filter hg
                simp at this
                simp [this]
              have he2 : ∀ gl : List Group, (∀ g ∈ gl, g.tournamentId = tid) →
                  gl.filter (fun g => g.tournamentId = tid) = gl := by
                intro gl hgl
                rw [List.filter_eq_self]
                intro g hg
                simp [hgl g hg]
              rw [he1, he2 _ (buildGroupsGo_tid tid _ n 0 _), List.nil_append,
                buildGroupsGo_length]

def c9Tournament : Tournament :=
  { id := "t1", organizerId := "u1", status := TournamentStatus.PUBLISHED,
    drawCompleted := true }

def c9State : DrawState :=
  { tournaments := [c9Tournament],
    registrations :=
      [{ id := "r1", tournamentId := "t1", clubId := "c1",
         status := RegistrationStatus.APPROVED },
       { id := "r2", tournamentId := "t1", clubId := "c2",
         status := RegistrationStatus.APPROVED }],
    groups := [] }

/-- Witness for C9 at a concrete already-drawn tournament. -/
theorem executeDraw_already_drawn_witness :
    c9State.tournaments.find? (fun u => u.id == "t1") = some c9Tournament ∧
    ¬ (c9Tournament.organizerId ≠ "u1" ∧ UserRole.ORGANIZER ≠ UserRole.ADMIN) ∧
    c9Tournament.drawCompleted = true ∧
    executeDraw id "seed1" c9State "t1" "u1" UserRole.ORGANIZER 2 =
      .error .alreadyDrawn := by
  have hfind : c9State.tournaments.find? (fun u => u.id == "t1") = some c9Tournament := by
    decide
  have hauth : ¬ (c9Tournament.organizerId ≠ "u1" ∧ UserRole.ORGANIZER ≠ UserRole.ADMIN) := by
    decide
  exact ⟨hfind, hauth, rfl,
    (executeDraw_already_drawn id id "seed1" "seed2" c9State "t1" "u1" "u1"
      UserRole.ORGANIZER UserRole.ORGANIZER 2 2 c9Tournament hfind hauth hauth).1 rfl⟩

end Draw
